import Mathlib

set_option maxRecDepth 4000

unseal Rat.mul Rat.add Rat.sub Rat.inv

/-!
Verification of the InvoiceParser python-parser core against its specification.

This file gives a shallow embedding, in Lean 4, of the parts of the source
code under src/python-parser/src that the frozen claims C1..C10 talk about:

* utils/helpers.py            (parse_italian_decimal)            -> section Helpers
* validators/ocr_validator.py (OCRValidator)                     -> section Validator
* extractors/coordinate_table_extractor.py
    (_merge_paired_rows, _find_table_boundaries)                 -> sections RowMerge, Boundaries
* extractors/table_extractor.py
    (_map_table_columns, _extract_products_from_table and the
     flexible/structured row extraction;
     _associate_products_with_deliveries)                        -> sections Columns, Assoc
* extractors/response_compiler.py (ResponseCompiler)             -> section Compiler

Modelling conventions, used throughout:

* A Python str is modelled as PyStr, a list of characters;
  Python strings are sequences of code points, so this is faithful.
* Python None / optional values become Option; Python truthiness of a string
  is `not empty`, of an Optional[str] is `present and not empty`, of a
  Decimal is `not zero`.
* Python Decimal values are modelled as exact rationals (the module never
  reaches the default 28-digit context limit on the data the claims are
  about).  str(Decimal) is modelled value-canonically: pyDecimalStr prints
  the shortest plain decimal form, whereas Python preserves the scale
  (e.g. "34.190" keeps its trailing zero) and switches to scientific form
  for tiny adjusted exponents; no theorem below depends on that difference.
* The grammar accepted by the Decimal constructor is modelled for plain
  numeric literals (sign, digits, point, exponent); the special forms
  NaN / Infinity and embedded underscores are outside the model, and no
  theorem below evaluates an input that reaches them.
* Python re searches are modelled by hand-written leftmost, greedy,
  backtracking matchers built from a small set of primitives; character
  classes are read as ASCII, as are lower/upper-casing, matching the data
  the program processes.
-/

/-! ## Python string primitives -/

abbrev PyStr := List Char

/-- Coerce a Lean string literal to the PyStr model. -/
def strL (s : String) : PyStr := s.toList

/-- Python whitespace for str.strip and the regex class backslash-s (ASCII). -/
def pyIsSpace (c : Char) : Bool :=
  c = ' ' || c = '\t' || c = '\n' || c = '\r' || c = '\x0b' || c = '\x0c'

/-- Python str.strip(). -/
def pyStrip (s : PyStr) : PyStr :=
  ((s.dropWhile pyIsSpace).reverse.dropWhile pyIsSpace).reverse

/-- Python `c in s` for a single character. -/
def pyContainsChar (s : PyStr) (c : Char) : Bool := s.any (· = c)

/-- Python str.replace(a, b) for single characters. -/
def replaceChar (a b : Char) (s : PyStr) : PyStr :=
  s.map fun c => if c = a then b else c

/-- Python str.replace(a, "") for a single character. -/
def removeChar (a : Char) (s : PyStr) : PyStr := s.filter (· ≠ a)

/-- Python str.split(sep) for a single-character separator. -/
def splitOnChar (sep : Char) : PyStr → List PyStr
  | [] => [[]]
  | c :: rest =>
    let r := splitOnChar sep rest
    if c = sep then [] :: r
    else
      match r with
      | h :: t => (c :: h) :: t
      | [] => [[c]]

/-- Python str.lower() (ASCII case folding). -/
def pyLower (s : PyStr) : PyStr := s.map Char.toLower

/-- Python str.upper() (ASCII case folding). -/
def pyUpper (s : PyStr) : PyStr := s.map Char.toUpper

/-- Index of the first occurrence of pat in s (Python str.find / re literal
search); none when absent.  The empty pattern matches at position 0. -/
def findSubIdx (pat : PyStr) : PyStr → Option Nat
  | [] => if pat.isEmpty then some 0 else none
  | s@(_ :: rest) =>
    if pat.isPrefixOf s then some 0
    else (findSubIdx pat rest).map (· + 1)

/-- Python `pat in s` substring test. -/
def containsSub (s pat : PyStr) : Bool := (findSubIdx pat s).isSome

/-- Truthiness of a Python Optional[str]. -/
def pyTruthyOpt (o : Option PyStr) : Bool :=
  match o with
  | some s => !s.isEmpty
  | none => false

/-- Python f-string rendering of an Optional[str]: None prints as "None". -/
def pyStrOf (o : Option PyStr) : PyStr := o.getD (strL "None")

/-! ## Digits and decimal numerals -/

/-- Numeric value of a most-significant-first digit string
(the value Python int() computes on a digit run). -/
def valMSB (ds : PyStr) : Nat :=
  ds.foldl (fun a c => a * 10 + (c.toNat - 48)) 0

/-- One step of decimal long division for rendering, fuel-bounded so the
kernel can evaluate it. -/
def natDigitsGo : Nat → Nat → PyStr
  | 0, _ => []
  | fuel + 1, n =>
    if n = 0 then [] else natDigitsGo fuel (n / 10) ++ [Char.ofNat (48 + n % 10)]

/-- Decimal digit string of a natural number. -/
def natDigits (n : Nat) : PyStr :=
  if n = 0 then ['0'] else natDigitsGo n n

/-- Python str of an int. -/
def intStr (z : Int) : PyStr :=
  if z < 0 then '-' :: natDigits z.natAbs else natDigits z.natAbs

/-- Grammar of a plain numeric literal accepted by the Python Decimal
constructor: optional sign, digits around an optional point, optional
exponent.  The NaN / Infinity forms and digit-group underscores are not
modelled; no theorem in this file evaluates such an input. -/
def parseDecL (s : PyStr) : Option ℚ :=
  let sgncs : ℚ × PyStr :=
    match s with
    | [] => (1, [])
    | c :: rest => if c = '-' then (-1, rest) else if c = '+' then (1, rest) else (1, c :: rest)
  let sgn := sgncs.1
  let cs := sgncs.2
  let ds1 := cs.takeWhile Char.isDigit
  let cs1 := cs.dropWhile Char.isDigit
  let ds2cs2 : PyStr × PyStr :=
    match cs1 with
    | [] => ([], [])
    | c :: r => if c = '.' then (r.takeWhile Char.isDigit, r.dropWhile Char.isDigit) else ([], c :: r)
  let ds2 := ds2cs2.1
  let cs2 := ds2cs2.2
  if ds1.isEmpty && ds2.isEmpty then none
  else
    let mant : ℚ := (valMSB ds1 : ℚ) + (valMSB ds2 : ℚ) / ((10 : ℚ) ^ ds2.length)
    match cs2 with
    | [] => some (sgn * mant)
    | e :: r =>
      if e = 'e' || e = 'E' then
        let esgnr : Int × PyStr :=
          match r with
          | [] => (1, [])
          | c :: rr => if c = '-' then (-1, rr) else if c = '+' then (1, rr) else (1, c :: rr)
        let eds := esgnr.2.takeWhile Char.isDigit
        let erest := esgnr.2.dropWhile Char.isDigit
        if eds.isEmpty || !erest.isEmpty then none
        else some (sgn * mant * (10 : ℚ) ^ (esgnr.1 * (valMSB eds : Int)))
      else none

/-- One attempt, at the current position, of the fallback pattern
sign? digits* point-or-comma? digits+ used by parse_italian_decimal
(with full greedy backtracking semantics of Python re). -/
def matchNumAt (cs : PyStr) : Option PyStr :=
  let sgncs : PyStr × PyStr :=
    match cs with
    | c :: rest => if c = '-' || c = '+' then ([c], rest) else ([], cs)
    | [] => ([], [])
  let sgn := sgncs.1
  let cs1 := sgncs.2
  let ds1 := cs1.takeWhile Char.isDigit
  let cs2 := cs1.dropWhile Char.isDigit
  if ds1.isEmpty then
    match cs2 with
    | sep :: c2 :: _ =>
      if (sep = '.' || sep = ',') && c2.isDigit then
        some (sgn ++ sep :: (cs2.drop 1).takeWhile Char.isDigit)
      else none
    | _ => none
  else
    match cs2 with
    | sep :: c2 :: _ =>
      if (sep = '.' || sep = ',') && c2.isDigit then
        some (sgn ++ ds1 ++ sep :: (cs2.drop 1).takeWhile Char.isDigit)
      else some (sgn ++ ds1)
    | _ => some (sgn ++ ds1)

/-- Leftmost match of the numeric fallback pattern (re.search). -/
def searchNumFallback : PyStr → Option PyStr
  | [] => matchNumAt []
  | s@(_ :: rest) =>
    match matchNumAt s with
    | some g => some g
    | none => searchNumFallback rest

/-! ## Helpers: parse_italian_decimal (src/utils/helpers.py) -/

/-- Model of helpers.parse_italian_decimal restricted to string input (the
claims quantify over strings; the int/float/Decimal passthrough branches of
the source are not needed by them).  Exceptions cannot arise: the model
returns an Option instead. -/
def parse_italian_decimal (text_value : PyStr) : Option ℚ :=
  let cleaned_value := pyStrip text_value
  if cleaned_value.isEmpty then none
  else
    let standardized_value :=
      if pyContainsChar cleaned_value ',' && pyContainsChar cleaned_value '.' then
        let parts := splitOnChar ',' cleaned_value
        if parts.length = 2 then
          removeChar '.' (parts.getD 0 []) ++ '.' :: parts.getD 1 []
        else replaceChar ',' '.' (removeChar '.' cleaned_value)
      else if pyContainsChar cleaned_value ',' then
        replaceChar ',' '.' cleaned_value
      else cleaned_value
    match parseDecL standardized_value with
    | some r => some r
    | none =>
      match searchNumFallback cleaned_value with
      | some g => parseDecL (replaceChar ',' '.' g)
      | none => none

/-- Python parse of an Optional[str] field (parse_italian_decimal(None) is
None in the source). -/
def parseOptItalian (o : Option PyStr) : Option ℚ :=
  match o with
  | some s => parse_italian_decimal s
  | none => none

/-- Truthiness of an Optional[Decimal] (None and 0 are falsy). -/
def pyTruthyQ (o : Option ℚ) : Bool :=
  match o with
  | some v => decide (v ≠ 0)
  | none => false

/-! ## str(Decimal): value-canonical decimal rendering -/

/-- Fuel-bounded search for the least power of ten clearing the denominator. -/
def decScaleAux : Nat → ℚ → Nat → Nat
  | 0, _, k => k
  | fuel + 1, q, k => if q.den = 1 then k else decScaleAux fuel (q * 10) (k + 1)

/-- Least k (up to the denominator) with q times 10 to the k an integer. -/
def decScale (q : ℚ) : Nat := decScaleAux q.den q 0

/-- Value-canonical plain decimal rendering of a rational; models
str(Decimal) up to scale (see the module comment). -/
def pyDecimalStr (q : ℚ) : PyStr :=
  let sgn : PyStr := if q < 0 then ['-'] else []
  let k := decScale q
  let m := (q * (10 : ℚ) ^ k).num.natAbs
  if k = 0 then sgn ++ natDigits m
  else
    let fds := natDigits (m % 10 ^ k)
    sgn ++ natDigits (m / 10 ^ k) ++ '.' :: (List.replicate (k - fds.length) '0' ++ fds)

/-- Python round(x, 3) on exact rationals: round-half-to-even of x*1000.
Python rounds binary doubles; on the exact values reached in this file the
two agree. -/
def pyRound3 (q : ℚ) : ℚ :=
  let x := q * 1000
  let f : Int := ⌊x⌋
  let r : ℚ := x - (f : ℚ)
  let n : Int :=
    if r < 1/2 then f
    else if 1/2 < r then f + 1
    else if f % 2 = 0 then f else f + 1
  (n : ℚ) / 1000

/-! ## Character and list facts used to evaluate the parsers symbolically -/

theorem digit_ne {c x : Char} (h : c.isDigit = true) (hx : x.isDigit = false) : c ≠ x := by
  intro he
  subst he
  rw [h] at hx
  cases hx

theorem digit_not_space {c : Char} (h : c.isDigit = true) : pyIsSpace c = false := by
  cases hps : pyIsSpace c
  · rfl
  · exfalso
    simp only [pyIsSpace, Bool.or_eq_true, decide_eq_true_eq] at hps
    rcases hps with ((((h1 | h1) | h1) | h1) | h1) | h1 <;> subst h1 <;> exact absurd h (by decide)

theorem dropWhile_eq_self_of {p : Char → Bool} {l : PyStr} (h : ∀ c ∈ l, p c = false) :
    l.dropWhile p = l := by
  cases l with
  | nil => rfl
  | cons a t => simp [List.dropWhile_cons, h a (List.mem_cons_self a t)]

theorem pyStrip_eq_self {s : PyStr} (h : ∀ c ∈ s, pyIsSpace c = false) : pyStrip s = s := by
  unfold pyStrip
  rw [dropWhile_eq_self_of h,
    dropWhile_eq_self_of (fun c hc => h c (List.mem_reverse.mp hc)), List.reverse_reverse]

theorem takeWhile_all {p : Char → Bool} {l : PyStr} (h : ∀ c ∈ l, p c = true) :
    l.takeWhile p = l := List.takeWhile_eq_self_iff.mpr h

theorem dropWhile_all {p : Char → Bool} {l : PyStr} (h : ∀ c ∈ l, p c = true) :
    l.dropWhile p = [] := List.dropWhile_eq_nil_iff.mpr h

theorem takeWhile_append_not {p : Char → Bool} {l1 : PyStr} {x : Char} {l2 : PyStr}
    (h1 : ∀ c ∈ l1, p c = true) (hx : p x = false) :
    (l1 ++ x :: l2).takeWhile p = l1 ∧ (l1 ++ x :: l2).dropWhile p = x :: l2 := by
  induction l1 with
  | nil => simp [List.takeWhile_cons, List.dropWhile_cons, hx]
  | cons a t ih =>
    have ha := h1 a (List.mem_cons_self a t)
    have iht := ih (fun c hc => h1 c (List.mem_cons_of_mem a hc))
    simp [List.takeWhile_cons, List.dropWhile_cons, ha, iht.1, iht.2]

/-! ## Digit-string lemmas -/

theorem digitChar_isDigit {d : ℕ} (h : d < 10) : (Char.ofNat (48 + d)).isDigit = true := by
  interval_cases d <;> decide

theorem digitChar_val {d : ℕ} (h : d < 10) : (Char.ofNat (48 + d)).toNat - 48 = d := by
  interval_cases d <;> decide

theorem natDigitsGo_eq : ∀ fuel n, n ≤ fuel →
    natDigitsGo fuel n = ((Nat.digits 10 n).map (fun d => Char.ofNat (48 + d))).reverse := by
  intro fuel
  induction fuel with
  | zero =>
    intro n hn
    have h0 : n = 0 := by omega
    subst h0
    simp [natDigitsGo]
  | succ fuel ih =>
    intro n hn
    by_cases h : n = 0
    · subst h
      simp [natDigitsGo]
    · have hrec : n / 10 ≤ fuel := by
        have := Nat.div_lt_self (Nat.pos_of_ne_zero h) (by norm_num : 1 < 10)
        omega
      show (if n = 0 then []
          else natDigitsGo fuel (n / 10) ++ [Char.ofNat (48 + n % 10)]) = _
      rw [if_neg h, ih (n / 10) hrec,
        Nat.digits_def' (by norm_num : 1 < 10) (Nat.pos_of_ne_zero h)]
      simp

theorem natDigits_eq (n : ℕ) :
    natDigits n = if n = 0 then ['0']
      else ((Nat.digits 10 n).map (fun d => Char.ofNat (48 + d))).reverse := by
  unfold natDigits
  by_cases h : n = 0
  · rw [if_pos h, if_pos h]
  · rw [if_neg h, if_neg h, natDigitsGo_eq n n (le_refl n)]

theorem natDigits_ne_nil (n : ℕ) : natDigits n ≠ [] := by
  by_cases h : n = 0
  · simp [natDigits_eq, h]
  · have hd : Nat.digits 10 n ≠ [] := Nat.digits_ne_nil_iff_ne_zero.mpr h
    simp [natDigits_eq, h, hd]

theorem natDigits_all_digit (n : ℕ) : ∀ c ∈ natDigits n, c.isDigit = true := by
  intro c hc
  by_cases h : n = 0
  · simp [natDigits_eq, h] at hc
    subst hc; decide
  · simp only [natDigits_eq, h, if_false, List.mem_reverse, List.mem_map] at hc
    obtain ⟨d, hd, rfl⟩ := hc
    exact digitChar_isDigit (Nat.digits_lt_base (by norm_num) hd)

theorem valMSB_rev_map (l : List ℕ) (h : ∀ d ∈ l, d < 10) (acc : ℕ) :
    ((l.map (fun d => Char.ofNat (48 + d))).reverse).foldl
        (fun a c => a * 10 + (c.toNat - 48)) acc
      = acc * 10 ^ l.length + Nat.ofDigits 10 l := by
  induction l generalizing acc with
  | nil => simp [Nat.ofDigits_nil]
  | cons d t ih =>
    have hd : d < 10 := h d (List.mem_cons_self d t)
    have ht : ∀ x ∈ t, x < 10 := fun x hx => h x (List.mem_cons_of_mem d hx)
    simp only [List.map_cons, List.reverse_cons, List.foldl_append, List.foldl_cons,
      List.foldl_nil]
    rw [ih ht acc, digitChar_val hd, Nat.ofDigits_cons, List.length_cons, pow_succ]
    ring

theorem valMSB_natDigits (n : ℕ) : valMSB (natDigits n) = n := by
  by_cases h : n = 0
  · subst h; decide
  · unfold valMSB
    rw [natDigits_eq]
    simp only [h, if_false]
    rw [valMSB_rev_map _ (fun d hd => Nat.digits_lt_base (by norm_num) hd) 0]
    simp [Nat.ofDigits_digits]

theorem valMSB_zeros (z : ℕ) (ds : PyStr) :
    valMSB (List.replicate z '0' ++ ds) = valMSB ds := by
  induction z with
  | zero => simp
  | succ m ih =>
    simp only [List.replicate_succ, List.cons_append, valMSB, List.foldl_cons] at *
    have hz : (0 * 10 + (('0').toNat - 48)) = 0 := by decide
    rw [hz]
    exact ih

theorem natDigits_len_le {n k : ℕ} (hn : n < 10 ^ k) (hk : 0 < k) :
    (natDigits n).length ≤ k := by
  by_cases h : n = 0
  · subst h; simpa [natDigits_eq] using hk
  · rw [natDigits_eq]
    simp only [h, if_false, List.length_reverse, List.length_map]
    rw [Nat.digits_len 10 n (by norm_num) h]
    have := (Nat.lt_pow_iff_log_lt (by norm_num : (1:ℕ) < 10) h).mp hn
    omega

/-! ## Denominator lemmas for the decimal renderer -/

theorem rat_mul_den (q : ℚ) : q * (q.den : ℚ) = (q.num : ℚ) := by
  have hden : ((q.den : ℚ)) ≠ 0 := Nat.cast_ne_zero.mpr (Rat.den_ne_zero q)
  calc q * (q.den : ℚ) = ((q.num : ℚ) / (q.den : ℚ)) * (q.den : ℚ) := by
        rw [Rat.num_div_den]
    _ = (q.num : ℚ) := div_mul_cancel₀ _ hden

theorem den_one_of_dvd {q : ℚ} {k : ℕ} (h : q.den ∣ 10 ^ k) : (q * (10:ℚ) ^ k).den = 1 := by
  obtain ⟨c, hc⟩ := h
  have key : q * (10:ℚ)^k = ((q.num * c : ℤ) : ℚ) := by
    have h1 : ((10:ℚ)) ^ k = ((10 ^ k : ℕ) : ℚ) := by push_cast; ring
    rw [h1, hc]
    push_cast
    rw [← mul_assoc, rat_mul_den]
  rw [key, Rat.den_intCast]

theorem den_dvd_of_mul_den_one {q : ℚ} {k : ℕ} (h : (q * (10:ℚ) ^ k).den = 1) :
    q.den ∣ 10 ^ k := by
  have h10 : ((10:ℚ))^k ≠ 0 := pow_ne_zero k (by norm_num)
  have hz : (((q * (10:ℚ)^k).num : ℤ) : ℚ) = q * (10:ℚ)^k := (Rat.den_eq_one_iff _).mp h
  have hq : q = Rat.divInt (q * (10:ℚ)^k).num ((10:ℤ)^k) := by
    rw [Rat.divInt_eq_div]
    push_cast
    rw [hz]
    field_simp
  have hdvd := Rat.den_dvd (q * (10:ℚ)^k).num ((10:ℤ)^k)
  rw [← hq] at hdvd
  have : ((10:ℤ))^k = ((10^k : ℕ) : ℤ) := by push_cast; ring
  rw [this] at hdvd
  exact_mod_cast hdvd

theorem decScaleAux_den : ∀ (fuel : ℕ) (q : ℚ) (k : ℕ), q.den ∣ 10 ^ fuel →
    (q * (10:ℚ) ^ (decScaleAux fuel q k - k)).den = 1 ∧ k ≤ decScaleAux fuel q k := by
  intro fuel
  induction fuel with
  | zero =>
    intro q k h
    have h1 : q.den = 1 := Nat.dvd_one.mp (by simpa using h)
    simp [decScaleAux, h1]
  | succ f ih =>
    intro q k h
    by_cases hq : q.den = 1
    · simp [decScaleAux, hq]
    · have step : ((q * 10) * (10:ℚ)^f).den = 1 := by
        have he : (q * 10) * (10:ℚ)^f = q * (10:ℚ)^(f+1) := by ring
        rw [he]; exact den_one_of_dvd h
      have hdvd : (q * 10).den ∣ 10 ^ f := den_dvd_of_mul_den_one step
      obtain ⟨h1, h2⟩ := ih (q * 10) (k + 1) hdvd
      have hr : decScaleAux (f+1) q k = decScaleAux f (q*10) (k+1) := by
        simp [decScaleAux, hq]
      refine ⟨?_, by rw [hr]; omega⟩
      rw [hr]
      have harith : decScaleAux f (q*10) (k+1) - k = (decScaleAux f (q*10) (k+1) - (k+1)) + 1 := by
        omega
      rw [harith, pow_succ]
      have he2 : q * ((10:ℚ) ^ (decScaleAux f (q*10) (k+1) - (k+1)) * 10)
          = (q * 10) * (10:ℚ) ^ (decScaleAux f (q*10) (k+1) - (k+1)) := by ring
      rw [he2]
      exact h1

theorem den_dvd_pow_den {q : ℚ} (h : ∃ L, q.den ∣ 10 ^ L) : q.den ∣ 10 ^ q.den := by
  obtain ⟨L, hL⟩ := h
  have h2 : q.den ∣ 2 ^ L * 5 ^ L := by
    have : (2:ℕ) ^ L * 5 ^ L = 10 ^ L := by rw [← mul_pow]; norm_num
    rw [this]; exact hL
  obtain ⟨d1, d2, hd1, hd2, he⟩ := exists_dvd_and_dvd_of_dvd_mul h2
  obtain ⟨a, _, rfl⟩ := (Nat.dvd_prime_pow Nat.prime_two).mp hd1
  obtain ⟨b, _, rfl⟩ := (Nat.dvd_prime_pow (by norm_num : Nat.Prime 5)).mp hd2
  have hpos : 0 < q.den := Rat.den_pos q
  have ha : a ≤ q.den := by
    have h2a : 2 ^ a ≤ q.den := Nat.le_of_dvd hpos ⟨5 ^ b, he⟩
    have := Nat.lt_pow_self (by norm_num : 1 < 2) a
    omega
  have hb : b ≤ q.den := by
    have h5b : 5 ^ b ≤ q.den := Nat.le_of_dvd hpos ⟨2 ^ a, by rw [he]; ring⟩
    have := Nat.lt_pow_self (by norm_num : 1 < 5) b
    omega
  have h10 : (10:ℕ) ^ q.den = 2 ^ q.den * 5 ^ q.den := by rw [← mul_pow]; norm_num
  rw [h10]
  nth_rewrite 1 [he]
  exact mul_dvd_mul (pow_dvd_pow 2 ha) (pow_dvd_pow 5 hb)

theorem decScale_den {q : ℚ} (h : ∃ L, q.den ∣ 10 ^ L) :
    (q * (10:ℚ) ^ decScale q).den = 1 := by
  have := decScaleAux_den q.den q 0 (den_dvd_pow_den h)
  simpa [decScale] using this.1

/-! ## Symbolic evaluation of parseDecL on canonical shapes -/

theorem parseDecL_digits {a : PyStr} (ha : ∀ c ∈ a, c.isDigit = true) (hne : a ≠ []) :
    parseDecL a = some (valMSB a : ℚ) := by
  obtain ⟨c, t, hct⟩ := List.exists_cons_of_ne_nil hne
  have hc : c.isDigit = true := ha c (by rw [hct]; exact List.mem_cons_self c t)
  have hcm : ¬(c = '-') := digit_ne hc (by decide)
  have hcp : ¬(c = '+') := digit_ne hc (by decide)
  unfold parseDecL
  rw [hct]
  simp only [hcm, hcp, if_false]
  rw [← hct, takeWhile_all ha, dropWhile_all ha]
  have hae : a.isEmpty = false := by simp [List.isEmpty_iff, hne]
  simp [hae, valMSB]

theorem parseDecL_point {a b : PyStr} (ha : ∀ c ∈ a, c.isDigit = true)
    (hb : ∀ c ∈ b, c.isDigit = true) (hane : a ≠ []) :
    parseDecL (a ++ '.' :: b)
      = some ((valMSB a : ℚ) + (valMSB b : ℚ) / (10:ℚ) ^ b.length) := by
  obtain ⟨c, t, hct⟩ := List.exists_cons_of_ne_nil hane
  have hc : c.isDigit = true := ha c (by rw [hct]; exact List.mem_cons_self c t)
  have hcm : ¬(c = '-') := digit_ne hc (by decide)
  have hcp : ¬(c = '+') := digit_ne hc (by decide)
  have hsplit := @takeWhile_append_not Char.isDigit a '.' b ha
    (show ('.' : Char).isDigit = false by decide)
  unfold parseDecL
  rw [hct, List.cons_append]
  simp only [hcm, hcp, if_false]
  rw [← List.cons_append, ← hct, hsplit.1, hsplit.2]
  have hae : a.isEmpty = false := by simp [List.isEmpty_iff, hane]
  simp [hae, takeWhile_all hb, dropWhile_all hb]

/-! ## Roundtrip: parsing the rendered decimal recovers the value -/

theorem parse_pyDecimalStr {v : ℚ} (hv : 0 ≤ v) (hdec : ∃ L, v.den ∣ 10 ^ L) :
    parseDecL (pyDecimalStr v) = some v := by
  have hden1 : (v * (10:ℚ) ^ decScale v).den = 1 := decScale_den hdec
  have hnn : 0 ≤ (v * (10:ℚ) ^ decScale v).num := by
    rw [Rat.num_nonneg]
    positivity
  have hnum : (((v * (10:ℚ) ^ decScale v).num : ℤ) : ℚ) = v * (10:ℚ) ^ decScale v :=
    (Rat.den_eq_one_iff _).mp hden1
  have hmq : (((v * (10:ℚ) ^ decScale v).num.natAbs : ℕ) : ℚ) = v * (10:ℚ) ^ decScale v := by
    have h1 : (((v * (10:ℚ) ^ decScale v).num.natAbs : ℤ)) = (v * (10:ℚ) ^ decScale v).num :=
      Int.natAbs_of_nonneg hnn
    calc (((v * (10:ℚ) ^ decScale v).num.natAbs : ℕ) : ℚ)
        = (((v * (10:ℚ) ^ decScale v).num.natAbs : ℤ) : ℚ) := (Int.cast_natCast _).symm
      _ = (((v * (10:ℚ) ^ decScale v).num : ℤ) : ℚ) := by rw [h1]
      _ = v * (10:ℚ) ^ decScale v := hnum
  have h10 : ((10:ℚ)) ^ decScale v ≠ 0 := pow_ne_zero _ (by norm_num)
  have hv_eq : v = (((v * (10:ℚ) ^ decScale v).num.natAbs : ℕ) : ℚ) / (10:ℚ) ^ decScale v := by
    rw [hmq]
    field_simp
  have hsgn : ¬(v < 0) := not_lt.mpr hv
  unfold pyDecimalStr
  simp only [hsgn, if_false, List.nil_append]
  by_cases hk0 : decScale v = 0
  · simp only [hk0, if_pos]
    rw [parseDecL_digits (natDigits_all_digit _) (natDigits_ne_nil _), valMSB_natDigits]
    rw [hv_eq, hk0]
    norm_num [Int.natAbs_abs]
  · simp only [hk0, if_false]
    set m := (v * (10:ℚ) ^ decScale v).num.natAbs with hm
    set k := decScale v with hk
    have hfp : m % 10 ^ k < 10 ^ k := Nat.mod_lt _ (by positivity)
    have hlen : (natDigits (m % 10 ^ k)).length ≤ k :=
      natDigits_len_le hfp (Nat.pos_of_ne_zero hk0)
    have hBall : ∀ c ∈ List.replicate (k - (natDigits (m % 10 ^ k)).length) '0'
        ++ natDigits (m % 10 ^ k), c.isDigit = true := by
      intro c hcB
      rcases List.mem_append.mp hcB with h | h
      · rw [List.eq_of_mem_replicate h]; decide
      · exact natDigits_all_digit _ c h
    have hBlen : (List.replicate (k - (natDigits (m % 10 ^ k)).length) '0'
        ++ natDigits (m % 10 ^ k)).length = k := by
      rw [List.length_append, List.length_replicate]
      omega
    rw [parseDecL_point (natDigits_all_digit _) hBall (natDigits_ne_nil _)]
    rw [valMSB_zeros, valMSB_natDigits, valMSB_natDigits, hBlen]
    congr 1
    rw [hv_eq]
    have hsplit : (10:ℕ) ^ k * (m / 10 ^ k) + m % 10 ^ k = m := Nat.div_add_mod m (10 ^ k)
    have hcast := congrArg (fun n : ℕ => (n : ℚ)) hsplit
    push_cast at hcast
    field_simp
    linarith [hcast]

/-! ## Canonical decimal inputs (claim-side definition, used only to state C8) -/

/-- Already-canonical decimal input in the sense of the claim: one or more
digits, optionally followed by a point and one or more digits. -/
def isCanonDecimalL (s : PyStr) : Bool :=
  let a := s.takeWhile Char.isDigit
  let r := s.dropWhile Char.isDigit
  !a.isEmpty &&
    (r.isEmpty || (r.headD ' ' = '.' && !(r.drop 1).isEmpty && (r.drop 1).all Char.isDigit))

theorem ital_eq_parseDecL {s : PyStr} (hch : ∀ c ∈ s, c.isDigit = true ∨ c = '.')
    (hne : s ≠ []) {v : ℚ} (hp : parseDecL s = some v) :
    parse_italian_decimal s = some v := by
  have hns : ∀ c ∈ s, pyIsSpace c = false := by
    intro c hc
    rcases hch c hc with h | h
    · exact digit_not_space h
    · subst h; decide
  have hstrip : pyStrip s = s := pyStrip_eq_self hns
  have hnc : pyContainsChar s ',' = false := by
    rw [pyContainsChar, List.any_eq_false]
    intro c hc
    simp only [decide_eq_true_eq]
    rcases hch c hc with h | h
    · exact digit_ne h (by decide)
    · subst h; decide
  have hse : s.isEmpty = false := by simp [List.isEmpty_iff, hne]
  unfold parse_italian_decimal
  rw [hstrip]
  simp [hse, hnc, hp]

theorem pyDecimalStr_chars {v : ℚ} (hv : 0 ≤ v) :
    ∀ c ∈ pyDecimalStr v, c.isDigit = true ∨ c = '.' := by
  intro c hc
  have hsgn : ¬(v < 0) := not_lt.mpr hv
  unfold pyDecimalStr at hc
  simp only [hsgn, if_false, List.nil_append] at hc
  by_cases hk0 : decScale v = 0
  · simp only [hk0, if_pos] at hc
    exact Or.inl (natDigits_all_digit _ c hc)
  · simp only [hk0, if_false] at hc
    rcases List.mem_append.mp hc with h | h
    · exact Or.inl (natDigits_all_digit _ c h)
    · rcases List.mem_cons.mp h with h | h
      · exact Or.inr h
      · rcases List.mem_append.mp h with h2 | h2
        · rw [List.eq_of_mem_replicate h2]; exact Or.inl (by decide)
        · exact Or.inl (natDigits_all_digit _ c h2)

theorem pyDecimalStr_ne_nil (v : ℚ) : pyDecimalStr v ≠ [] := by
  unfold pyDecimalStr
  by_cases hs : v < 0 <;> by_cases hk : decScale v = 0 <;>
    simp [hs, hk, natDigits_ne_nil]

theorem den_add_frac (A B L : ℕ) :
    (((A : ℚ) + (B : ℚ) / (10:ℚ) ^ L)).den ∣ 10 ^ L := by
  have h10 : ((10:ℚ))^L ≠ 0 := pow_ne_zero _ (by norm_num)
  apply den_dvd_of_mul_den_one
  have he : ((A : ℚ) + (B : ℚ) / (10:ℚ) ^ L) * (10:ℚ)^L = ((A * 10^L + B : ℕ) : ℚ) := by
    push_cast
    field_simp
  rw [he, Rat.den_natCast]

theorem canon_parse {s : PyStr} (h : isCanonDecimalL s = true) :
    ∃ v : ℚ, parseDecL s = some v ∧ 0 ≤ v ∧ (∃ L, v.den ∣ 10 ^ L) ∧
      parse_italian_decimal s = some v := by
  have hamem : ∀ c ∈ s.takeWhile Char.isDigit, c.isDigit = true :=
    fun c hc => List.mem_takeWhile_imp hc
  have hsplit := List.takeWhile_append_dropWhile Char.isDigit s
  unfold isCanonDecimalL at h
  simp only [Bool.and_eq_true, Bool.or_eq_true, Bool.not_eq_true'] at h
  obtain ⟨ha, hr⟩ := h
  have hane : s.takeWhile Char.isDigit ≠ [] := by
    intro h0
    rw [h0] at ha
    simp at ha
  set a := s.takeWhile Char.isDigit with ha_def
  cases hd : s.dropWhile Char.isDigit with
  | nil =>
    have hs_eq : a = s := by
      have h1 := hsplit
      rw [hd, List.append_nil] at h1
      exact h1
    rw [← hs_eq]
    have hpd : parseDecL a = some (valMSB a : ℚ) := parseDecL_digits hamem hane
    exact ⟨_, hpd, by positivity, ⟨0, by simp [Rat.den_natCast]⟩,
      ital_eq_parseDecL (fun c hc => Or.inl (hamem c hc)) hane hpd⟩
  | cons x b =>
    rw [hd] at hr
    simp only [List.isEmpty_cons, List.headD_cons, List.drop_one, List.tail_cons,
      Bool.and_eq_true, Bool.not_eq_true', decide_eq_true_eq, List.all_eq_true] at hr
    rcases hr with hr | hr
    · cases hr
    obtain ⟨⟨hx, hbne⟩, hball⟩ := hr
    subst hx
    have hs_eq : a ++ '.' :: b = s := by
      have h1 := hsplit
      rw [hd] at h1
      exact h1
    rw [← hs_eq]
    have hpd : parseDecL (a ++ '.' :: b)
        = some ((valMSB a : ℚ) + (valMSB b : ℚ) / (10:ℚ) ^ b.length) :=
      parseDecL_point hamem hball hane
    refine ⟨_, hpd, by positivity, ⟨b.length, den_add_frac _ _ _⟩, ?_⟩
    refine ital_eq_parseDecL ?_ (by simp) hpd
    intro c hc
    rcases List.mem_append.mp hc with h1 | h1
    · exact Or.inl (hamem c h1)
    · rcases List.mem_cons.mp h1 with h2 | h2
      · exact Or.inr h2
      · exact Or.inl (hball c h2)

/-- C8: localized decimal parsing.  For every input string the parser
returns a value or none (never raises); "126,911" parses to 126.911;
"1.234,56" parses to 1234.56; the empty string and unparseable text give
none; and on an already-canonical decimal input the parse is idempotent:
re-parsing the rendering of the parsed value gives the same value. -/
theorem claim_C8 :
    parse_italian_decimal (strL "126,911") = some (126911/1000) ∧
    parse_italian_decimal (strL "1.234,56") = some (123456/100) ∧
    parse_italian_decimal (strL "") = none ∧
    parse_italian_decimal (strL "abc") = none ∧
    (∀ s : PyStr, parse_italian_decimal s = none ∨ ∃ q : ℚ, parse_italian_decimal s = some q) ∧
    (∀ (s : PyStr) (v : ℚ), isCanonDecimalL s = true → parse_italian_decimal s = some v →
      parse_italian_decimal (pyDecimalStr v) = some v) := by
  refine ⟨by decide, by decide, by decide, by decide, ?_, ?_⟩
  · intro s
    cases h : parse_italian_decimal s with
    | none => exact Or.inl rfl
    | some q => exact Or.inr ⟨q, rfl⟩
  · intro s v hcanon hparse
    obtain ⟨w, _, hw0, hwdec, hwital⟩ := canon_parse hcanon
    have hv : w = v := by
      rw [hwital] at hparse
      exact Option.some_injective _ hparse
    subst hv
    have hround := parse_pyDecimalStr hw0 hwdec
    exact ital_eq_parseDecL (pyDecimalStr_chars hw0) (pyDecimalStr_ne_nil _) hround

/-- Witness for C8: the idempotence component applied at the concrete
canonical input "2.5". -/
theorem claim_C8_witness : parse_italian_decimal (pyDecimalStr (5/2)) = some (5/2) :=
  claim_C8.2.2.2.2.2 (strL "2.5") (5/2) (by decide) (by decide)

/-! ## Data model (src/models/invoice_models.py)

The dataclasses are translated field for field; Optional[str] fields become
Option PyStr with default none, exactly as in the source.  PageData.tables
(untyped pandas frames only passed between extraction stages) and the
llmwhisperer fields of ProcessingConfig are not consumed by any function
modelled here and are omitted. -/

structure ProductData where
  product_code : Option PyStr := none
  description : Option PyStr := none
  customs_code : Option PyStr := none
  unit_of_measure : Option PyStr := none
  quantity : Option PyStr := none
  unit_price : Option PyStr := none
  total_price : Option PyStr := none
deriving DecidableEq, Inhabited

structure DeliveryData where
  ddt_series : Option PyStr := none
  ddt_number : Option PyStr := none
  ddt_date : Option PyStr := none
  ddt_reason : Option PyStr := none
  model_number : Option PyStr := none
  model_name : Option PyStr := none
  order_series : Option PyStr := none
  order_number : Option PyStr := none
  product_name : Option PyStr := none
  product_properties : Option PyStr := none
  products : List ProductData := []
deriving DecidableEq, Inhabited

structure BillData where
  bill_number : Option PyStr := none
  bill_date : Option PyStr := none
  currency : Option PyStr := none
  customer_code : Option PyStr := none
  customer_name : Option PyStr := none
  customer_address : Option PyStr := none
  customer_vat_id : Option PyStr := none
  gross_weight_kg : Option PyStr := none
  net_weight_kg : Option PyStr := none
  package_count : Option Int := none
  shipping_term : Option PyStr := none
  total_amount : Option PyStr := none
deriving DecidableEq, Inhabited

structure PageData where
  page_number : Int := 0
  raw_text : PyStr := []
  products : List ProductData := []
  delivery_info : Option DeliveryData := none
  all_deliveries : List DeliveryData := []
  errors : List PyStr := []
deriving DecidableEq, Inhabited

/-- The corrected_data dictionary built by OCRValidator._generate_corrections. -/
structure CorrectionData where
  corrected_products : List ProductData := []
  correction_notes : List PyStr := []
deriving DecidableEq, Inhabited

structure ValidationResult where
  page_number : Int := 0
  is_valid : Bool := true
  confidence_score : ℚ := 1
  validation_errors : List PyStr := []
  corrected_data : Option CorrectionData := none
deriving DecidableEq, Inhabited

structure ExtractionResult where
  success : Bool
  bill_data : Option BillData := none
  delivery_data : List DeliveryData := []
  products : List ProductData := []
  page_data : List PageData := []
  validation_results : List ValidationResult := []
  extraction_method : PyStr := strL "camelot+pdfminer"
  raw_text : List (PyStr × PyStr) := []
  validation_checksum_ok : Bool := false
  parsing_errors : List PyStr := []
  message : PyStr := []
deriving DecidableEq, Inhabited

structure ProcessingConfig where
  enable_ocr_validation : Bool := true
  ocr_confidence_threshold : ℚ := 8/10
  table_extraction_flavor : PyStr := strL "lattice"
  line_scale : Int := 30
  max_pages_to_process : Option Int := none
  validate_checksums : Bool := true
deriving DecidableEq, Inhabited

/-- The configuration with all defaults (ConfigManager.load_config with no
environment overrides). -/
def defaultProcessingConfig : ProcessingConfig := {}

/-! ## Validator (src/validators/ocr_validator.py, class OCRValidator) -/

/-- Error message prefix f-string "Product i+1: msg". -/
def productErr (i : Nat) (msg : String) : PyStr :=
  strL "Product " ++ natDigits (i + 1) ++ strL ": " ++ strL msg

/-- OCRValidator._validate_numeric_field. -/
def validate_numeric_field (field_value : Option PyStr) : Bool :=
  match field_value with
  | none => false
  | some s =>
    if s.isEmpty then false
    else
      match parse_italian_decimal s with
      | some parsed => decide (0 ≤ parsed)
      | none => false

/-- OCRValidator._validate_price_calculation.  The numeric payload of the
mismatch message is rendered with the value-canonical pyDecimalStr. -/
def validate_price_calculation (product : ProductData) (product_index : Nat) : Option PyStr :=
  let quantity := parseOptItalian product.quantity
  let unit_price := parseOptItalian product.unit_price
  let total_price := parseOptItalian product.total_price
  if ¬(pyTruthyQ quantity && pyTruthyQ unit_price && pyTruthyQ total_price) = true then
    some (productErr product_index "Cannot parse pricing fields for calculation")
  else
    let q := quantity.getD 0
    let u := unit_price.getD 0
    let t := total_price.getD 0
    let calculated_total := q * u
    let difference := |calculated_total - t|
    let tolerance := max (1/100 : ℚ) (t * (1/1000))
    if tolerance < difference then
      some (productErr product_index "Price calculation mismatch. Expected: "
        ++ pyDecimalStr calculated_total ++ strL ", Found: " ++ pyDecimalStr t
        ++ strL ", Difference: " ++ pyDecimalStr difference)
    else none

/-- The loop body of OCRValidator._validate_products_consistency, returning
the error list and the valid_products count. -/
def consistencyGo (i : Nat) : List ProductData → (List PyStr × Nat)
  | [] => ([], 0)
  | p :: rest =>
    let tail := consistencyGo (i + 1) rest
    let qv := validate_numeric_field p.quantity
    let uv := validate_numeric_field p.unit_price
    let tv := validate_numeric_field p.total_price
    if ¬(qv && uv && tv) = true then
      (productErr i "Invalid numeric fields" :: tail.1, tail.2)
    else if pyTruthyOpt p.quantity && pyTruthyOpt p.unit_price && pyTruthyOpt p.total_price then
      match validate_price_calculation p i with
      | some e => (e :: tail.1, tail.2)
      | none => (tail.1, tail.2 + 1)
    else
      (productErr i "Missing critical pricing fields" :: tail.1, tail.2)

structure ConsistencyReport where
  errors : List PyStr
  consistency_score : ℚ
  valid_products : Nat
  total_products : Nat
deriving DecidableEq

/-- OCRValidator._validate_products_consistency. -/
def validate_products_consistency (products : List ProductData) : ConsistencyReport :=
  let ev := consistencyGo 0 products
  { errors := ev.1
    consistency_score :=
      if 0 < products.length then (ev.2 : ℚ) / (products.length : ℚ) else 0
    valid_products := ev.2
    total_products := products.length }

/-- OCRValidator._generate_code_variants.  The source builds a Python set;
only membership is consumed downstream (an any() test), for which the
deduplicated list is equivalent. -/
def generate_code_variants (product_code : PyStr) : List PyStr :=
  let variants := [product_code]
  let cleaned := product_code.filter Char.isAlphanum
  let variants := if cleaned ≠ product_code then variants ++ [cleaned] else variants
  let variants :=
    if pyContainsChar product_code '.' then variants ++ [replaceChar '.' ' ' product_code]
    else variants
  let variants :=
    if pyContainsChar product_code ' ' then variants ++ [replaceChar ' ' '.' product_code]
    else variants
  variants.eraseDups

/-- The loop body of OCRValidator._cross_reference_with_text, returning the
error list and the found_products count. -/
def textGo (raw_text : PyStr) (i : Nat) : List ProductData → (List PyStr × Nat)
  | [] => ([], 0)
  | p :: rest =>
    let tail := textGo raw_text (i + 1) rest
    match p.product_code with
    | some code =>
      if code.isEmpty then (tail.1, tail.2)
      else if containsSub raw_text code then (tail.1, tail.2 + 1)
      else if (generate_code_variants code).any (fun v => containsSub raw_text v) then
        (tail.1, tail.2 + 1)
      else
        ((strL "Product " ++ natDigits (i + 1) ++ strL ": Code " ++ code
          ++ strL " not found in raw text") :: tail.1, tail.2)
    | none => (tail.1, tail.2)

structure TextReport where
  errors : List PyStr
  text_match_score : ℚ
  found_products : Nat
deriving DecidableEq

/-- OCRValidator._cross_reference_with_text. -/
def cross_reference_with_text (products : List ProductData) (raw_text : PyStr) : TextReport :=
  if raw_text.isEmpty then
    { errors := [strL "No raw text available for cross-referencing"]
      text_match_score := 0
      found_products := 0 }
  else
    let ev := textGo raw_text 0 products
    { errors := ev.1
      text_match_score := if products.isEmpty then 0 else (ev.2 : ℚ) / (products.length : ℚ)
      found_products := ev.2 }

/-- OCRValidator._calculate_confidence_score. -/
def calculate_confidence_score (pv : ConsistencyReport) (tv : TextReport) : ℚ :=
  let consistency_weight : ℚ := 6/10
  let text_match_weight : ℚ := 4/10
  let overall_score := pv.consistency_score * consistency_weight
    + tv.text_match_score * text_match_weight
  let error_count := pv.errors.length + tv.errors.length
  let overall_score :=
    if 0 < error_count then
      let error_penalty := min ((2/10 : ℚ) * (error_count : ℚ)) (1/2)
      max 0 (overall_score - error_penalty)
    else overall_score
  pyRound3 overall_score

/-- OCRValidator._attempt_product_correction. -/
def attempt_product_correction (product : ProductData) (index : Nat)
    (errors : List PyStr) : ProductData :=
  let corrected : ProductData :=
    { product_code := product.product_code
      description := product.description
      customs_code := product.customs_code
      unit_of_measure := product.unit_of_measure
      quantity := product.quantity
      unit_price := product.unit_price
      total_price := product.total_price }
  let relevant_errors := errors.filter (fun e =>
    containsSub e (strL "Product " ++ natDigits (index + 1))
      && containsSub e (strL "calculation mismatch"))
  if ¬relevant_errors.isEmpty && pyTruthyOpt product.quantity
      && pyTruthyOpt product.unit_price then
    match parseOptItalian product.quantity, parseOptItalian product.unit_price with
    | some q, some u =>
      if q ≠ 0 ∧ u ≠ 0 then { corrected with total_price := some (pyDecimalStr (q * u)) }
      else corrected
    | _, _ => corrected
  else corrected

/-- OCRValidator._generate_corrections. -/
def generate_corrections (products : List ProductData) (errors : List PyStr) : CorrectionData :=
  let corrected_products := (List.range products.length).map
    (fun i => attempt_product_correction (products.getD i default) i errors)
  let notes1 :=
    if errors.any (fun e => containsSub (pyLower e) (strL "price calculation mismatch")) then
      [strL "Price calculation mismatches detected. Consider manual review of unit prices and totals."]
    else []
  let notes2 :=
    if errors.any (fun e => containsSub (pyLower e) (strL "not found in raw text")) then
      [strL "Some product codes not found in raw text. OCR quality may be poor on this page."]
    else []
  { corrected_products := corrected_products, correction_notes := notes1 ++ notes2 }

/-- OCRValidator.validate_page_data.  The enclosing try/except of the source
is unreachable in the model (no modelled operation raises). -/
def validate_page_data (config : ProcessingConfig) (page_data : PageData) : ValidationResult :=
  if ¬config.enable_ocr_validation = true then
    { page_number := page_data.page_number
      is_valid := true
      confidence_score := 8/10 }
  else
    let product_validation := validate_products_consistency page_data.products
    let text_validation := cross_reference_with_text page_data.products page_data.raw_text
    let validation_errors := product_validation.errors ++ text_validation.errors
    let confidence_score := calculate_confidence_score product_validation text_validation
    let is_valid := decide (config.ocr_confidence_threshold ≤ confidence_score)
      && validation_errors.isEmpty
    let corrected_data :=
      if ¬is_valid = true then some (generate_corrections page_data.products validation_errors)
      else none
    { page_number := page_data.page_number
      is_valid := is_valid
      confidence_score := confidence_score
      validation_errors := validation_errors
      corrected_data := corrected_data }

/-- C10: when OCR-style validation is disabled in the configuration, page
validation returns, for every page, a ValidationOutcome with validity true,
confidence score exactly 0.8, no validation errors and no corrected data;
the arithmetic and text cross-reference checks are skipped entirely. -/
theorem claim_C10 (config : ProcessingConfig) (page : PageData)
    (h : config.enable_ocr_validation = false) :
    validate_page_data config page
      = { page_number := page.page_number
          is_valid := true
          confidence_score := 8/10
          validation_errors := []
          corrected_data := none } := by
  simp [validate_page_data, h]

/-- A concrete page whose products would fail every check were validation
enabled (unparseable fields, code absent from the text). -/
def c10Page : PageData :=
  { page_number := 3
    raw_text := strL "unrelated text"
    products := [{ product_code := some (strL "XYZ"), quantity := some (strL "garbage") }] }

/-- Witness for C10 at a concrete page and a concrete disabled configuration. -/
theorem claim_C10_witness :
    validate_page_data { enable_ocr_validation := false } c10Page
      = { page_number := 3
          is_valid := true
          confidence_score := 8/10
          validation_errors := []
          corrected_data := none } :=
  claim_C10 { enable_ocr_validation := false } c10Page rfl

/-! ## C2: claim-side definitions and counterexample -/

/-- Modelled from the spec: the fraction numerator of items whose parsed
quantity times unit price equals the parsed total within
max(1 cent, 0.1 percent of the total). -/
def specArithmeticOkCount (products : List ProductData) : Nat :=
  (products.filter (fun p =>
    match parseOptItalian p.quantity, parseOptItalian p.unit_price,
        parseOptItalian p.total_price with
    | some q, some u, some t => decide (|q * u - t| ≤ max (1/100 : ℚ) (t * (1/1000)))
    | _, _, _ => false)).length

/-- Modelled from the spec: the fraction numerator of items whose product
code, or a punctuation-normalized variant of it, appears verbatim in the
raw page text. -/
def specTextMatchCount (raw_text : PyStr) (products : List ProductData) : Nat :=
  (products.filter (fun p =>
    match p.product_code with
    | some code =>
      containsSub raw_text code
        || (generate_code_variants code).any (fun v => containsSub raw_text v)
    | none => false)).length

/-- Modelled from the spec: the claimed confidence formula, with no
rounding: 0.6 c + 0.4 t, minus min(0.5, 0.2 e) when e errors were recorded,
clamped to the unit interval. -/
def specC2Score (c t : ℚ) (e : Nat) : ℚ :=
  min 1 (max 0 (6/10 * c + 4/10 * t - (if 0 < e then min ((2/10 : ℚ) * (e : ℚ)) (1/2) else 0)))

/-- A three-product page: all items arithmetically consistent, the codes of
the first two appear in the raw text, the third does not. -/
def c2Page : PageData :=
  { page_number := 0
    raw_text := strL "AAA BBB"
    products :=
      [ { product_code := some (strL "AAA"), quantity := some (strL "2")
          unit_price := some (strL "3"), total_price := some (strL "6") }
      , { product_code := some (strL "BBB"), quantity := some (strL "2")
          unit_price := some (strL "3"), total_price := some (strL "6") }
      , { product_code := some (strL "CCC"), quantity := some (strL "2")
          unit_price := some (strL "3"), total_price := some (strL "6") } ] }

/-- Counterexample to C2 as stated: on c2Page the validator records one
error, the claimed formula gives 0.6 x 1 + 0.4 x 2/3 - 0.2 = 2/3 exactly,
but the code rounds the confidence to three decimal places and stores
0.667, which differs from 2/3. -/
theorem claim_C2_counterexample :
    (validate_page_data defaultProcessingConfig c2Page).confidence_score = 667/1000 ∧
    specArithmeticOkCount c2Page.products = 3 ∧
    specTextMatchCount c2Page.raw_text c2Page.products = 2 ∧
    c2Page.products.length = 3 ∧
    (validate_page_data defaultProcessingConfig c2Page).validation_errors.length = 1 ∧
    specC2Score (3/3) (2/3) 1 = 2/3 ∧
    (validate_page_data defaultProcessingConfig c2Page).confidence_score
      ≠ specC2Score (3/3) (2/3) 1 := by
  decide

/-- The per-item arithmetic acceptance test of the validator: numeric fields
parse to nonnegative values, are truthy, and the product check finds no
mismatch (the branch structure mirrors the consistency loop). -/
def arithmeticOkB (p : ProductData) : Bool :=
  if ¬(validate_numeric_field p.quantity && validate_numeric_field p.unit_price
      && validate_numeric_field p.total_price) = true then false
  else if pyTruthyOpt p.quantity && pyTruthyOpt p.unit_price && pyTruthyOpt p.total_price then
    (validate_price_calculation p 0).isNone
  else false

def countArithmeticOk (products : List ProductData) : Nat :=
  (products.filter arithmeticOkB).length

/-- The per-item text-match acceptance test of the validator. -/
def foundInTextB (raw_text : PyStr) (p : ProductData) : Bool :=
  match p.product_code with
  | some code =>
    if code.isEmpty then false
    else if containsSub raw_text code then true
    else if (generate_code_variants code).any (fun v => containsSub raw_text v) then true
    else false
  | none => false

def countFoundInText (raw_text : PyStr) (products : List ProductData) : Nat :=
  (products.filter (foundInTextB raw_text)).length

/-- An item that carries a truthy product code which is not found in the
raw text (the error case of the cross-reference loop). -/
def textErrB (raw_text : PyStr) (p : ProductData) : Bool :=
  match p.product_code with
  | some code =>
    if code.isEmpty then false
    else if containsSub raw_text code then false
    else if (generate_code_variants code).any (fun v => containsSub raw_text v) then false
    else true
  | none => false

/-- Total number of validation errors the validator records on a page. -/
def ocrErrorCount (raw_text : PyStr) (products : List ProductData) : Nat :=
  (products.length - countArithmeticOk products)
    + (if raw_text.isEmpty then 1 else (products.filter (textErrB raw_text)).length)

theorem priceCalc_isNone_index (p : ProductData) (i j : Nat) :
    (validate_price_calculation p i).isNone = (validate_price_calculation p j).isNone := by
  unfold validate_price_calculation
  dsimp only
  split_ifs <;> rfl

theorem consistencyGo_spec (ps : List ProductData) : ∀ i : Nat,
    (consistencyGo i ps).2 = countArithmeticOk ps ∧
    (consistencyGo i ps).1.length + (consistencyGo i ps).2 = ps.length := by
  induction ps with
  | nil => intro i; simp [consistencyGo, countArithmeticOk]
  | cons p rest ih =>
    intro i
    obtain ⟨ih1, ih2⟩ := ih (i + 1)
    unfold consistencyGo
    dsimp only
    by_cases h1 : ¬(validate_numeric_field p.quantity && validate_numeric_field p.unit_price
        && validate_numeric_field p.total_price) = true
    · have hb : arithmeticOkB p = false := by unfold arithmeticOkB; rw [if_pos h1]
      rw [if_pos h1]
      constructor
      · simp [countArithmeticOk, List.filter_cons, hb, ih1]
      · simp only [List.length_cons]; omega
    · by_cases h2 : (pyTruthyOpt p.quantity && pyTruthyOpt p.unit_price
          && pyTruthyOpt p.total_price) = true
      · cases hc : validate_price_calculation p i with
        | some e =>
          have hb : arithmeticOkB p = false := by
            unfold arithmeticOkB
            rw [if_neg h1, if_pos h2, priceCalc_isNone_index p 0 i, hc]
            rfl
          simp only [if_neg h1, if_pos h2, hc]
          constructor
          · simp [countArithmeticOk, List.filter_cons, hb, ih1]
          · simp only [List.length_cons]; omega
        | none =>
          have hb : arithmeticOkB p = true := by
            unfold arithmeticOkB
            rw [if_neg h1, if_pos h2, priceCalc_isNone_index p 0 i, hc]
            rfl
          simp only [if_neg h1, if_pos h2, hc]
          constructor
          · simp [countArithmeticOk, List.filter_cons, hb, ih1]
          · simp only [List.length_cons]; omega
      · have hb : arithmeticOkB p = false := by
          unfold arithmeticOkB; rw [if_neg h1, if_neg h2]
        rw [if_neg h1, if_neg h2]
        constructor
        · simp [countArithmeticOk, List.filter_cons, hb, ih1]
        · simp only [List.length_cons]; omega

theorem textGo_spec (raw_text : PyStr) (ps : List ProductData) : ∀ i : Nat,
    (textGo raw_text i ps).2 = countFoundInText raw_text ps ∧
    (textGo raw_text i ps).1.length = (ps.filter (textErrB raw_text)).length := by
  induction ps with
  | nil => intro i; simp [textGo, countFoundInText]
  | cons p rest ih =>
    intro i
    obtain ⟨ih1, ih2⟩ := ih (i + 1)
    unfold textGo
    dsimp only
    cases hpc : p.product_code with
    | none =>
      have hf : foundInTextB raw_text p = false := by simp [foundInTextB, hpc]
      have he : textErrB raw_text p = false := by simp [textErrB, hpc]
      constructor
      · simp [countFoundInText, List.filter_cons, hf, ih1]
      · simp [List.filter_cons, he, ih2]
    | some code =>
      dsimp only
      by_cases hce : code.isEmpty = true
      · have hf : foundInTextB raw_text p = false := by simp [foundInTextB, hpc, hce]
        have he : textErrB raw_text p = false := by simp [textErrB, hpc, hce]
        rw [if_pos hce]
        constructor
        · simp [countFoundInText, List.filter_cons, hf, ih1]
        · simp [List.filter_cons, he, ih2]
      · by_cases hcc : containsSub raw_text code = true
        · have hf : foundInTextB raw_text p = true := by simp [foundInTextB, hpc, hce, hcc]
          have he : textErrB raw_text p = false := by simp [textErrB, hpc, hce, hcc]
          rw [if_neg hce, if_pos hcc]
          constructor
          · simp [countFoundInText, List.filter_cons, hf, ih1]
          · simp [List.filter_cons, he, ih2]
        · by_cases hv : ((generate_code_variants code).any
              (fun v => containsSub raw_text v)) = true
          · have hf : foundInTextB raw_text p = true := by
              simp [foundInTextB, hpc, hce, hcc, hv]
            have he : textErrB raw_text p = false := by
              simp [textErrB, hpc, hce, hcc, hv]
            rw [if_neg hce, if_neg hcc, if_pos hv]
            constructor
            · simp [countFoundInText, List.filter_cons, hf, ih1]
            · simp [List.filter_cons, he, ih2]
          · have hf : foundInTextB raw_text p = false := by
              simp [foundInTextB, hpc, hce, hcc, hv]
            have he : textErrB raw_text p = true := by
              simp [textErrB, hpc, hce, hcc, hv]
            rw [if_neg hce, if_neg hcc, if_neg hv]
            constructor
            · simp [countFoundInText, List.filter_cons, hf, ih1]
            · simp [List.filter_cons, he, List.length_cons, ih2]

theorem isEmpty_iff_len (l : List PyStr) : l.isEmpty = true ↔ l.length = 0 := by
  cases l <;> simp

/-- C2 (amended): with OCR validation enabled, the confidence score equals
the half-even 3-decimal rounding of 0.6 times the arithmetic-consistency
fraction plus 0.4 times the text-match fraction, minus (when any validation
error was recorded) a penalty of min(0.2 times the error count, 0.5), the
difference clamped below at 0 but the blend never clamped above at 1; the
original claim omits the rounding step.  The page is valid iff the score
reaches the threshold and the error count is zero. -/
theorem claim_C2_amended (config : ProcessingConfig) (page : PageData)
    (h : config.enable_ocr_validation = true) :
    (validate_page_data config page).confidence_score
      = pyRound3
          (if 0 < ocrErrorCount page.raw_text page.products then
            max 0
              ((if 0 < page.products.length then
                  (countArithmeticOk page.products : ℚ) / (page.products.length : ℚ)
                else 0) * (6/10)
                + (if page.raw_text.isEmpty then 0
                   else if page.products.isEmpty then 0
                   else (countFoundInText page.raw_text page.products : ℚ)
                     / (page.products.length : ℚ)) * (4/10)
                - min ((2/10 : ℚ) * (ocrErrorCount page.raw_text page.products : ℚ)) (1/2))
          else
            (if 0 < page.products.length then
                (countArithmeticOk page.products : ℚ) / (page.products.length : ℚ)
              else 0) * (6/10)
              + (if page.raw_text.isEmpty then 0
                 else if page.products.isEmpty then 0
                 else (countFoundInText page.raw_text page.products : ℚ)
                   / (page.products.length : ℚ)) * (4/10))
      ∧ ((validate_page_data config page).is_valid = true ↔
          config.ocr_confidence_threshold ≤ (validate_page_data config page).confidence_score
            ∧ ocrErrorCount page.raw_text page.products = 0) := by
  obtain ⟨hpv1, hpv2⟩ := consistencyGo_spec page.products 0
  obtain ⟨htv1, htv2⟩ := textGo_spec page.raw_text page.products 0
  have herrlen : (validate_products_consistency page.products).errors.length
      + (cross_reference_with_text page.products page.raw_text).errors.length
      = ocrErrorCount page.raw_text page.products := by
    unfold validate_products_consistency cross_reference_with_text ocrErrorCount
    by_cases hre : page.raw_text.isEmpty = true
    · rw [if_pos hre, if_pos hre]
      dsimp only
      simp only [List.length_cons, List.length_nil]
      omega
    · rw [if_neg hre, if_neg hre]
      dsimp only
      rw [htv2]
      omega
  have hscoreq : (validate_products_consistency page.products).consistency_score
      = (if 0 < page.products.length then
          (countArithmeticOk page.products : ℚ) / (page.products.length : ℚ) else 0) := by
    unfold validate_products_consistency
    dsimp only
    rw [hpv1]
  have htextq : (cross_reference_with_text page.products page.raw_text).text_match_score
      = (if page.raw_text.isEmpty then 0
         else if page.products.isEmpty then 0
         else (countFoundInText page.raw_text page.products : ℚ)
           / (page.products.length : ℚ)) := by
    unfold cross_reference_with_text
    by_cases hre : page.raw_text.isEmpty = true
    · rw [if_pos hre, if_pos hre]
    · rw [if_neg hre, if_neg hre]
      dsimp only
      rw [htv1]
  have hscore : calculate_confidence_score (validate_products_consistency page.products)
      (cross_reference_with_text page.products page.raw_text)
      = pyRound3
          (if 0 < ocrErrorCount page.raw_text page.products then
            max 0
              ((if 0 < page.products.length then
                  (countArithmeticOk page.products : ℚ) / (page.products.length : ℚ)
                else 0) * (6/10)
                + (if page.raw_text.isEmpty then 0
                   else if page.products.isEmpty then 0
                   else (countFoundInText page.raw_text page.products : ℚ)
                     / (page.products.length : ℚ)) * (4/10)
                - min ((2/10 : ℚ) * (ocrErrorCount page.raw_text page.products : ℚ)) (1/2))
          else
            (if 0 < page.products.length then
                (countArithmeticOk page.products : ℚ) / (page.products.length : ℚ)
              else 0) * (6/10)
              + (if page.raw_text.isEmpty then 0
                 else if page.products.isEmpty then 0
                 else (countFoundInText page.raw_text page.products : ℚ)
                   / (page.products.length : ℚ)) * (4/10)) := by
    unfold calculate_confidence_score
    dsimp only
    rw [hscoreq, htextq, herrlen]
  have hvp : validate_page_data config page
      = { page_number := page.page_number
          is_valid := decide (config.ocr_confidence_threshold
              ≤ calculate_confidence_score (validate_products_consistency page.products)
                  (cross_reference_with_text page.products page.raw_text))
            && ((validate_products_consistency page.products).errors
              ++ (cross_reference_with_text page.products page.raw_text).errors).isEmpty
          confidence_score := calculate_confidence_score
            (validate_products_consistency page.products)
            (cross_reference_with_text page.products page.raw_text)
          validation_errors := (validate_products_consistency page.products).errors
            ++ (cross_reference_with_text page.products page.raw_text).errors
          corrected_data :=
            if ¬(decide (config.ocr_confidence_threshold
                  ≤ calculate_confidence_score (validate_products_consistency page.products)
                      (cross_reference_with_text page.products page.raw_text))
                && ((validate_products_consistency page.products).errors
                  ++ (cross_reference_with_text page.products page.raw_text).errors).isEmpty)
                = true then
              some (generate_corrections page.products
                ((validate_products_consistency page.products).errors
                  ++ (cross_reference_with_text page.products page.raw_text).errors))
            else none } := by
    unfold validate_page_data
    rw [if_neg (by simp [h])]
  constructor
  · rw [hvp]
    exact hscore
  · rw [hvp]
    dsimp only
    rw [Bool.and_eq_true, decide_eq_true_eq, isEmpty_iff_len, List.length_append, herrlen]

/-- Witness for the amended C2 claim at the concrete three-product page. -/
theorem claim_C2_amended_witness :
    (validate_page_data defaultProcessingConfig c2Page).confidence_score = 667/1000 ∧
    ((validate_page_data defaultProcessingConfig c2Page).is_valid = true ↔
      defaultProcessingConfig.ocr_confidence_threshold
          ≤ (validate_page_data defaultProcessingConfig c2Page).confidence_score
        ∧ ocrErrorCount c2Page.raw_text c2Page.products = 0) :=
  ⟨by decide, (claim_C2_amended defaultProcessingConfig c2Page rfl).2⟩

/-! ## C1: paired-row merging (coordinate_table_extractor._merge_paired_rows) -/

/-- A raw grid row: the dictionary fields consumed by _merge_paired_rows.
A key absent from the Python dict behaves as the empty string in every
read performed by the function. -/
structure RawRow where
  product_code : PyStr := []
  quantity : PyStr := []
  unit_price : PyStr := []
  total_price : PyStr := []
  unit_of_measure : PyStr := []
  voce_dog : PyStr := []
deriving DecidableEq, Inhabited

/-- has_product_code: stripped code truthy and "MMA" a substring of the
unstripped code. -/
def rowHasProductCode (r : RawRow) : Bool :=
  !(pyStrip r.product_code).isEmpty && containsSub r.product_code (strL "MMA")

/-- One field of the lookback merge: take the previous value when the
current one is falsy and the previous one truthy. -/
def mergeField (cur prev : PyStr) : PyStr :=
  if cur.isEmpty && !prev.isEmpty then prev else cur

def mergeFromPrev (cur prev : RawRow) : RawRow :=
  { product_code := cur.product_code
    quantity := mergeField cur.quantity prev.quantity
    unit_price := mergeField cur.unit_price prev.unit_price
    total_price := mergeField cur.total_price prev.total_price
    unit_of_measure := mergeField cur.unit_of_measure prev.unit_of_measure
    voce_dog := mergeField cur.voce_dog prev.voce_dog }

/-- The trailing-row filter: any of quantity, unit_price, total_price
truthy after strip. -/
def rowHasNumeric (r : RawRow) : Bool :=
  !(pyStrip r.quantity).isEmpty || !(pyStrip r.unit_price).isEmpty
    || !(pyStrip r.total_price).isEmpty

/-- The while-loop of _merge_paired_rows; prev is raw_rows of i minus 1
(none at the first index). -/
def mergePairedGo (prev : Option RawRow) : List RawRow → List RawRow
  | [] => []
  | cur :: rest =>
    if rowHasProductCode cur = true then
      (match prev with
        | some p => mergeFromPrev cur p
        | none => cur) :: mergePairedGo (some cur) rest
    else
      match rest with
      | next :: _ =>
        if rowHasProductCode next = true then mergePairedGo (some cur) rest
        else cur :: mergePairedGo (some cur) rest
      | [] => if rowHasNumeric cur = true then [cur] else []

/-- CoordinateTableExtractor._merge_paired_rows. -/
def merge_paired_rows (raw_rows : List RawRow) : List RawRow :=
  mergePairedGo none raw_rows

/-- Per-index outcome of the merge loop, read off the source branch by
branch: a primary row is always emitted (merged with the original
preceding row whenever one exists, supplementary or not); a non-primary
row followed by a primary row is dropped; a non-primary row followed by a
non-primary row is emitted unchanged; a non-primary final row is emitted
iff it carries a truthy numeric field. -/
def mergeStep (raw_rows : List RawRow) (i : Nat) : Option RawRow :=
  let cur := raw_rows.getD i default
  if rowHasProductCode cur = true then
    some (if 0 < i then mergeFromPrev cur (raw_rows.getD (i - 1) default) else cur)
  else if i + 1 < raw_rows.length then
    (if rowHasProductCode (raw_rows.getD (i + 1) default) = true then none
     else some cur)
  else if rowHasNumeric cur = true then some cur else none

theorem mergePairedGo_cons (prev : Option RawRow) (cur : RawRow) (rest : List RawRow) :
    mergePairedGo prev (cur :: rest)
      = if rowHasProductCode cur = true then
          (match prev with
            | some p => mergeFromPrev cur p
            | none => cur) :: mergePairedGo (some cur) rest
        else
          match rest with
          | _ :: _ =>
            if rowHasProductCode (rest.headD default) = true then mergePairedGo (some cur) rest
            else cur :: mergePairedGo (some cur) rest
          | [] => if rowHasNumeric cur = true then [cur] else [] := by
  cases rest <;> rfl

theorem mergePairedGo_spec (raw_rows : List RawRow) : ∀ n i, raw_rows.length - i = n →
    mergePairedGo (if i = 0 then none else some (raw_rows.getD (i - 1) default))
        (raw_rows.drop i)
      = ((List.range n).map (fun k => k + i)).filterMap (mergeStep raw_rows) := by
  intro n
  induction n with
  | zero =>
    intro i hi
    rw [List.drop_eq_nil_of_le (by omega), List.range_zero, List.map_nil, List.filterMap_nil]
    cases h0 : decide (i = 0) <;> simp_all [mergePairedGo]
  | succ n ih =>
    intro i hi
    have hilt : i < raw_rows.length := by omega
    have hcur : raw_rows.getD i default = raw_rows[i] :=
      List.getD_eq_getElem raw_rows default hilt
    have hfun : ((fun k => k + i) ∘ Nat.succ) = (fun k => k + (i + 1)) := by
      funext k
      show Nat.succ k + i = k + (i + 1)
      omega
    have htail := ih (i + 1) (by omega)
    rw [if_neg (by omega), Nat.add_sub_cancel, hcur] at htail
    rw [List.drop_eq_getElem_cons hilt]
    simp only [List.range_succ_eq_map, List.map_cons, List.map_map, Nat.zero_add]
    rw [hfun, List.filterMap_cons]
    by_cases hpc : rowHasProductCode raw_rows[i] = true
    · have hstep : mergeStep raw_rows i
          = some (if 0 < i then mergeFromPrev raw_rows[i] (raw_rows.getD (i - 1) default)
                  else raw_rows[i]) := by
        unfold mergeStep
        dsimp only
        rw [hcur, if_pos hpc]
      rw [hstep, mergePairedGo_cons, if_pos hpc]
      by_cases hi0 : i = 0
      · subst hi0
        rw [if_pos rfl]
        dsimp only
        rw [htail, if_neg (lt_irrefl 0)]
      · rw [if_neg hi0, if_pos (by omega : 0 < i)]
        dsimp only
        rw [htail]
    · by_cases hnext : i + 1 < raw_rows.length
      · have hnextD : raw_rows.getD (i + 1) default = raw_rows[i + 1] :=
          List.getD_eq_getElem raw_rows default hnext
        rw [List.drop_eq_getElem_cons hnext] at htail ⊢
        by_cases hpcn : rowHasProductCode raw_rows[i + 1] = true
        · have hstep : mergeStep raw_rows i = none := by
            unfold mergeStep
            dsimp only
            rw [hcur, if_neg hpc, if_pos hnext, hnextD, if_pos hpcn]
          rw [hstep, mergePairedGo_cons, if_neg hpc]
          dsimp only [List.headD]
          rw [if_pos hpcn, htail]
        · have hstep : mergeStep raw_rows i = some raw_rows[i] := by
            unfold mergeStep
            dsimp only
            rw [hcur, if_neg hpc, if_pos hnext, hnextD, if_neg hpcn]
          rw [hstep, mergePairedGo_cons, if_neg hpc]
          dsimp only [List.headD]
          rw [if_neg hpcn, htail]
      · have hn0 : n = 0 := by omega
        subst hn0
        rw [List.drop_eq_nil_of_le (by omega : raw_rows.length ≤ i + 1)]
        simp only [List.range_zero, List.map_nil, List.filterMap_nil]
        by_cases hnum : rowHasNumeric raw_rows[i] = true
        · have hstep : mergeStep raw_rows i = some raw_rows[i] := by
            unfold mergeStep
            dsimp only
            rw [hcur, if_neg hpc, if_neg hnext, if_pos hnum]
          rw [hstep, mergePairedGo_cons, if_neg hpc]
          dsimp only
          rw [if_pos hnum]
        · have hstep : mergeStep raw_rows i = none := by
            unfold mergeStep
            dsimp only
            rw [hcur, if_neg hpc, if_neg hnext, if_neg hnum]
          rw [hstep, mergePairedGo_cons, if_neg hpc]
          dsimp only
          rw [if_neg hnum]

/-- The spec example rows: a supplementary row carrying quantity 34.19
followed by a primary row with an empty quantity. -/
def c1SuppRow : RawRow := { quantity := strL "34.19" }

def c1PrimaryRow : RawRow :=
  { product_code := strL "MMA1.2.3", total_price := strL "6" }

/-- A fully blank row: not primary and carrying no numeric value. -/
def c1BlankRow : RawRow := {}

/-- C1 (amended): the merge emits, per index, exactly what mergeStep
describes: a primary row is always emitted, pulling each empty field from
the original immediately preceding row whenever one exists (whether or not
that row is supplementary); a non-primary row immediately followed by a
primary row is dropped; a non-primary row followed by another non-primary
row is emitted unchanged regardless of numeric content; only a non-primary
final row is subject to the carries-a-numeric-value filter.  The spec
example holds: the primary row inherits quantity 34.19 and the
supplementary row is not emitted standalone. -/
theorem claim_C1_amended :
    (∀ raw_rows : List RawRow,
      merge_paired_rows raw_rows
        = (List.range raw_rows.length).filterMap (mergeStep raw_rows)) ∧
    merge_paired_rows [c1SuppRow, c1PrimaryRow]
      = [{ c1PrimaryRow with quantity := strL "34.19" }] := by
  constructor
  · intro raw_rows
    have h := mergePairedGo_spec raw_rows raw_rows.length 0 (by omega)
    rw [if_pos rfl, List.drop_zero] at h
    rw [merge_paired_rows, h]
    congr 1
    exact ((List.map_id (List.range raw_rows.length)).symm.trans
      (List.map_congr_left (fun k _ => (Nat.add_zero k).symm))).symm
  · decide

/-- C1 counterexample: two blank rows.  The first is a supplementary row
with no following primary row and no numeric value, yet it is emitted
standalone, contradicting the claim that such a row is emitted only if it
carries at least one numeric value. -/
theorem claim_C1_counterexample :
    merge_paired_rows [c1BlankRow, c1BlankRow] = [c1BlankRow]
      ∧ rowHasProductCode c1BlankRow = false
      ∧ rowHasNumeric c1BlankRow = false := by
  decide

/-! ## C6: table boundary location
(coordinate_table_extractor._find_table_boundaries) -/

/-- One positioned character of a pdfplumber page: the text, x0 and y0
fields consumed by the boundary search.  Coordinates are modelled as exact
rationals; the Euclidean distance test of the source compares the square
root of the squared distance against the radius, which for nonnegative
radius is equivalent to the squared comparison used here. -/
structure PChar where
  text : PyStr
  x0 : ℚ
  y0 : ℚ
deriving DecidableEq, Inhabited

structure PdfPage where
  width : ℚ
  chars : List PChar
deriving DecidableEq, Inhabited

structure BBox where
  x0 : ℚ
  y0 : ℚ
  x1 : ℚ
  y1 : ℚ
deriving DecidableEq, Inhabited

def startMarker : PyStr := strL "MS5LH0002 3635"

def endMarker : PyStr := strL "MS5LH0002 3636"

/-- Strict lexicographic order on (y0, x0), the sort key of
_get_text_near_position. -/
def pcharLt (a b : PChar) : Bool :=
  decide (a.y0 < b.y0) || (decide (a.y0 = b.y0) && decide (a.x0 < b.x0))

def insertPChar (c : PChar) : List PChar → List PChar
  | [] => [c]
  | x :: xs => if pcharLt x c then x :: insertPChar c xs else c :: x :: xs

/-- Stable sort by (y0, x0): elements with equal keys keep their original
relative order, as with the Python list sort. -/
def sortPChars (l : List PChar) : List PChar := l.foldr insertPChar []

/-- CoordinateTableExtractor._get_text_near_position with radius 50. -/
def get_text_near_position (page : PdfPage) (x y : ℚ) : PyStr :=
  let nearby := page.chars.filter (fun c => decide ((c.x0 - x)^2 + (c.y0 - y)^2 ≤ 2500))
  ((sortPChars nearby).map PChar.text).flatten

/-- The marker scan of _find_table_boundaries: characters whose text is a
substring of the marker and whose nearby text contains the full marker;
only the y coordinate is consumed downstream. -/
def marker_hits (page : PdfPage) (marker : PyStr) : List ℚ :=
  (page.chars.filter (fun c =>
    containsSub marker c.text
      && containsSub (get_text_near_position page c.x0 c.y0) marker)).map PChar.y0

def insertQ (q : ℚ) : List ℚ → List ℚ
  | [] => [q]
  | x :: xs => if x ≤ q then x :: insertQ q xs else q :: x :: xs

def sortQ (l : List ℚ) : List ℚ := l.foldr insertQ []

/-- CoordinateTableExtractor._find_table_boundaries. -/
def find_table_boundaries (page : PdfPage) : Option BBox :=
  let start_ys := sortQ (marker_hits page startMarker)
  let end_ys := sortQ (marker_hits page endMarker)
  match start_ys with
  | [] => none
  | s :: _ =>
    if end_ys.isEmpty then none
    else
      match end_ys.find? (fun e => decide (s < e)) with
      | some e => some { x0 := 0, y0 := min s e, x1 := page.width, y1 := max s e + 50 }
      | none =>
        match end_ys.find? (fun e => decide (e < s)) with
        | some e => some { x0 := 0, y0 := min s e, x1 := page.width, y1 := max s e + 50 }
        | none => none

theorem mem_insertQ (a q : ℚ) (l : List ℚ) : a ∈ insertQ q l ↔ a = q ∨ a ∈ l := by
  induction l with
  | nil => simp [insertQ]
  | cons x xs ih =>
    unfold insertQ
    by_cases h : x ≤ q
    · rw [if_pos h]
      simp only [List.mem_cons, ih]
      tauto
    · rw [if_neg h]
      simp only [List.mem_cons]

theorem mem_sortQ (a : ℚ) (l : List ℚ) : a ∈ sortQ l ↔ a ∈ l := by
  induction l with
  | nil => simp [sortQ]
  | cons x xs ih =>
    show a ∈ insertQ x (xs.foldr insertQ []) ↔ _
    rw [mem_insertQ]
    simp only [List.mem_cons]
    constructor
    · rintro (h | h)
      · exact Or.inl h
      · exact Or.inr (ih.mp h)
    · rintro (h | h)
      · exact Or.inl h
      · exact Or.inr (ih.mpr h)

/-- Forward discovery order: start marker char at y=100, end marker char
at y=400, more than the 50-unit radius apart. -/
def c6PageFwd : PdfPage :=
  { width := 600
    chars := [{ text := startMarker, x0 := 0, y0 := 100 },
              { text := endMarker, x0 := 0, y0 := 400 }] }

/-- The same characters discovered in reversed order. -/
def c6PageRev : PdfPage :=
  { width := 600
    chars := [{ text := endMarker, x0 := 0, y0 := 400 },
              { text := startMarker, x0 := 0, y0 := 100 }] }

/-- C6: whenever the boundary locator returns a box, the box spans the
full page width from x=0, its y0 is the smaller of a start-marker hit and
an end-marker hit at distinct heights, and its y1 is the larger plus the
50-unit buffer; when either marker has no hit the locator returns none;
and on the concrete page with markers at y=100 and y=400 the box is
(0, 100, width, 450), identically for forward and reversed character
order. -/
theorem claim_C6 :
    (∀ (page : PdfPage) (box : BBox), find_table_boundaries page = some box →
      box.x0 = 0 ∧ box.x1 = page.width ∧
      ∃ s e, s ∈ marker_hits page startMarker ∧ e ∈ marker_hits page endMarker ∧
        s ≠ e ∧ box.y0 = min s e ∧ box.y1 = max s e + 50) ∧
    (∀ page : PdfPage,
      marker_hits page startMarker = [] ∨ marker_hits page endMarker = [] →
      find_table_boundaries page = none) ∧
    (find_table_boundaries c6PageFwd
        = some { x0 := 0, y0 := 100, x1 := 600, y1 := 450 } ∧
      find_table_boundaries c6PageRev = find_table_boundaries c6PageFwd) := by
  refine ⟨?_, ?_, by decide, by decide⟩
  · intro page box h
    unfold find_table_boundaries at h
    dsimp only at h
    cases hs : sortQ (marker_hits page startMarker) with
    | nil => rw [hs] at h; exact absurd h (by simp)
    | cons s rest =>
      rw [hs] at h
      dsimp only at h
      by_cases he : (sortQ (marker_hits page endMarker)).isEmpty = true
      · rw [if_pos he] at h
        exact absurd h (by simp)
      · rw [if_neg he] at h
        have hsmem : s ∈ marker_hits page startMarker :=
          (mem_sortQ s _).mp (by rw [hs]; exact List.mem_cons_self s rest)
        cases hf : (sortQ (marker_hits page endMarker)).find? (fun e => decide (s < e)) with
        | some e =>
          rw [hf] at h
          dsimp only at h
          have hemem : e ∈ marker_hits page endMarker :=
            (mem_sortQ e _).mp (List.mem_of_find?_eq_some hf)
          have hlt : s < e := by
            have := List.find?_some hf
            exact of_decide_eq_true this
          have hb := (Option.some.inj h).symm
          subst hb
          exact ⟨rfl, rfl, s, e, hsmem, hemem, ne_of_lt hlt, rfl, rfl⟩
        | none =>
          rw [hf] at h
          dsimp only at h
          cases hf2 : (sortQ (marker_hits page endMarker)).find?
              (fun e => decide (e < s)) with
          | some e =>
            rw [hf2] at h
            dsimp only at h
            have hemem : e ∈ marker_hits page endMarker :=
              (mem_sortQ e _).mp (List.mem_of_find?_eq_some hf2)
            have hlt : e < s := by
              have := List.find?_some hf2
              exact of_decide_eq_true this
            have hb := (Option.some.inj h).symm
            subst hb
            exact ⟨rfl, rfl, s, e, hsmem, hemem, (ne_of_lt hlt).symm, rfl, rfl⟩
          | none =>
            rw [hf2] at h
            exact absurd h (by simp)
  · intro page h
    rcases h with h | h
    · unfold find_table_boundaries
      rw [h]
      rfl
    · unfold find_table_boundaries
      rw [h]
      cases hs : sortQ (marker_hits page startMarker) with
      | nil => rfl
      | cons s rest => rfl

/-- Witness for C6: the soundness component applied to the concrete
forward page and its concrete box. -/
theorem claim_C6_witness :
    ({ x0 := 0, y0 := 100, x1 := 600, y1 := 450 } : BBox).x0 = 0 ∧
    ({ x0 := 0, y0 := 100, x1 := 600, y1 := 450 } : BBox).x1 = c6PageFwd.width ∧
    ∃ s e, s ∈ marker_hits c6PageFwd startMarker ∧ e ∈ marker_hits c6PageFwd endMarker ∧
      s ≠ e ∧ ({ x0 := 0, y0 := 100, x1 := 600, y1 := 450 } : BBox).y0 = min s e ∧
      ({ x0 := 0, y0 := 100, x1 := 600, y1 := 450 } : BBox).y1 = max s e + 50 :=
  claim_C6.1 c6PageFwd { x0 := 0, y0 := 100, x1 := 600, y1 := 450 } (by decide)

/-! ## C5: product to delivery association
(table_extractor._associate_products_with_deliveries) -/

/-- Regex word character (ASCII). -/
def isWordChar (c : Char) : Bool := c.isAlphanum || c = '_'

def wordAtIdx (s : PyStr) (i : Nat) : Bool :=
  match s.drop i with
  | [] => false
  | c :: _ => isWordChar c

/-- A word boundary sits where the word-ness of the adjacent characters
differs; beyond either end counts as non-word. -/
def boundaryAt (s : PyStr) (i : Nat) : Bool :=
  (if i = 0 then false else wordAtIdx s (i - 1)) != wordAtIdx s i

/-- Match of the pattern series-whitespace-number at position i: the series
literally, then at least one whitespace character, then the number
literally.  The interpolated fields are treated as literals; the claim
constrains them to alphanumeric text, on which the source pattern is
literal as well. -/
def matchesDdtAt (series num s : PyStr) (i : Nat) : Bool :=
  series.isPrefixOf (s.drop i) &&
    (let rest := (s.drop i).drop series.length
     let ws := rest.takeWhile pyIsSpace
     (List.range ws.length).any (fun j => num.isPrefixOf (rest.drop (j + 1))))

/-- re.search: the start index of the leftmost match. -/
def searchDdt (series num s : PyStr) : Option Nat :=
  (List.range (s.length + 1)).find? (fun i => matchesDdtAt series num s i)

def matchesWordNumAt (num s : PyStr) (i : Nat) : Bool :=
  boundaryAt s i && num.isPrefixOf (s.drop i) && boundaryAt s (i + num.length)

def searchWordNum (num s : PyStr) : Option Nat :=
  (List.range (s.length + 1)).find? (fun i => matchesWordNumAt num s i)

/-- TableExtractor._find_delivery_positions_in_text: the f-string renders a
missing field as the text None. -/
def find_delivery_positions_in_text (page_text : PyStr)
    (deliveries : List DeliveryData) : List Nat :=
  deliveries.map (fun d =>
    match searchDdt (pyStrOf d.ddt_series) (pyStrOf d.ddt_number) page_text with
    | some i => i
    | none =>
      match searchWordNum (pyStrOf d.ddt_number) page_text with
      | some i => i
      | none => 0)

/-- TableExtractor._find_product_positions_in_text: the escaped code is a
literal substring search.  The source raises on a missing code; every
claim keeps the codes present, so the branch is never exercised. -/
def find_product_positions_in_text (page_text : PyStr)
    (products : List ProductData) : List Nat :=
  products.map (fun p =>
    match findSubIdx (pyStrOf p.product_code) page_text with
    | some i => i
    | none => page_text.length)

/-- The loop of _find_closest_preceding_delivery: i is the enumerate
index, acc carries the best (index, distance) so far; the source starts
from best None and infinite distance and updates on strict improvement.
The index identifies the delivery object the source returns and mutates. -/
def closestGo (pos : Nat) : Nat → Option (Nat × Nat) → List Nat → Option (Nat × Nat)
  | _, acc, [] => acc
  | i, acc, d :: rest =>
    if d ≤ pos then
      match acc with
      | some best =>
        if pos - d < best.2 then closestGo pos (i + 1) (some (i, pos - d)) rest
        else closestGo pos (i + 1) acc rest
      | none => closestGo pos (i + 1) (some (i, pos - d)) rest
    else closestGo pos (i + 1) acc rest

def find_closest_preceding_idx (pos : Nat) (dpos : List Nat) : Option Nat :=
  (closestGo pos 0 none dpos).map Prod.fst

/-- TableExtractor._associate_products_with_deliveries, as the transform of
the all_deliveries list: associations are cleared, a single delivery takes
every product, and otherwise each product goes to the delivery of the
closest preceding position, or the first delivery when none precedes. -/
def associate_products_with_deliveries (page_data : PageData) : List DeliveryData :=
  if page_data.all_deliveries.isEmpty || page_data.products.isEmpty then
    page_data.all_deliveries
  else
    let cleared := page_data.all_deliveries.map (fun d => { d with products := [] })
    if page_data.all_deliveries.length = 1 then
      cleared.map (fun d => { d with products := page_data.products })
    else
      let dpos := find_delivery_positions_in_text page_data.raw_text page_data.all_deliveries
      let ppos := find_product_positions_in_text page_data.raw_text page_data.products
      let pairs := page_data.products.zip ppos
      (cleared.zip (List.range cleared.length)).map (fun dj =>
        { dj.1 with products :=
            (pairs.filter (fun pr =>
              decide ((match find_closest_preceding_idx pr.2 dpos with
                | some j => j
                | none => 0) = dj.2))).map Prod.fst })

theorem closestGo_cons (pos i : Nat) (acc : Option (Nat × Nat)) (d : Nat) (rest : List Nat) :
    closestGo pos i acc (d :: rest)
      = if d ≤ pos then
          match acc with
          | some best =>
            if pos - d < best.2 then closestGo pos (i + 1) (some (i, pos - d)) rest
            else closestGo pos (i + 1) acc rest
          | none => closestGo pos (i + 1) (some (i, pos - d)) rest
        else closestGo pos (i + 1) acc rest := rfl

theorem closestGo_spec (pos : Nat) : ∀ (dpos : List Nat) (i : Nat) (acc : Option (Nat × Nat)),
    (closestGo pos i acc dpos = none → acc = none ∧ ∀ d ∈ dpos, pos < d) ∧
    (∀ j dist, closestGo pos i acc dpos = some (j, dist) →
      (∀ d ∈ dpos, d ≤ pos → dist ≤ pos - d) ∧
      (∀ j0 dist0, acc = some (j0, dist0) → dist ≤ dist0) ∧
      (acc = some (j, dist) ∨
        ∃ k, ∃ hk : k < dpos.length, j = i + k ∧ dpos[k] ≤ pos ∧ dist = pos - dpos[k])) := by
  intro dpos
  induction dpos with
  | nil =>
    intro i acc
    constructor
    · intro h
      exact ⟨h, by simp⟩
    · intro j dist h
      have hacc : acc = some (j, dist) := h
      refine ⟨by simp, ?_, Or.inl hacc⟩
      intro j0 dist0 h0
      rw [hacc] at h0
      cases Option.some.inj h0
      exact le_refl _
  | cons d rest ih =>
    intro i acc
    by_cases hq : d ≤ pos
    · cases acc with
      | none =>
        have hstep : closestGo pos i none (d :: rest)
            = closestGo pos (i + 1) (some (i, pos - d)) rest := by
          rw [closestGo_cons, if_pos hq]
        rw [hstep]
        constructor
        · intro h
          exact absurd ((ih (i + 1) (some (i, pos - d))).1 h).1 (by simp)
        · intro j dist h
          obtain ⟨hmin, hbnd, horig⟩ := ((ih (i + 1) (some (i, pos - d))).2 j dist h)
          have hdd : dist ≤ pos - d := hbnd i (pos - d) rfl
          refine ⟨?_, by simp, ?_⟩
          · intro e he hle
            rcases List.mem_cons.mp he with rfl | he2
            · exact hdd
            · exact hmin e he2 hle
          · rcases horig with horig | ⟨k, hk, hj, hkq, hkd⟩
            · have := Option.some.inj horig
              right
              refine ⟨0, by simp, ?_, ?_, ?_⟩
              · simpa using congrArg Prod.fst this.symm
              · simpa using hq
              · simpa using congrArg Prod.snd this.symm
            · right
              refine ⟨k + 1, by simpa using hk, by omega, ?_, ?_⟩
              · simpa using hkq
              · simpa using hkd
      | some best =>
        by_cases himp : pos - d < best.2
        · have hstep : closestGo pos i (some best) (d :: rest)
              = closestGo pos (i + 1) (some (i, pos - d)) rest := by
            rw [closestGo_cons, if_pos hq]
            dsimp only
            rw [if_pos himp]
          rw [hstep]
          constructor
          · intro h
            exact absurd ((ih (i + 1) (some (i, pos - d))).1 h).1 (by simp)
          · intro j dist h
            obtain ⟨hmin, hbnd, horig⟩ := ((ih (i + 1) (some (i, pos - d))).2 j dist h)
            have hdd : dist ≤ pos - d := hbnd i (pos - d) rfl
            refine ⟨?_, ?_, ?_⟩
            · intro e he hle
              rcases List.mem_cons.mp he with rfl | he2
              · exact hdd
              · exact hmin e he2 hle
            · intro j0 dist0 h0
              have : best = (j0, dist0) := Option.some.inj h0
              have : best.2 = dist0 := congrArg Prod.snd this
              omega
            · rcases horig with horig | ⟨k, hk, hj, hkq, hkd⟩
              · have := Option.some.inj horig
                right
                refine ⟨0, by simp, ?_, ?_, ?_⟩
                · simpa using congrArg Prod.fst this.symm
                · simpa using hq
                · simpa using congrArg Prod.snd this.symm
              · right
                refine ⟨k + 1, by simpa using hk, by omega, ?_, ?_⟩
                · simpa using hkq
                · simpa using hkd
        · have hstep : closestGo pos i (some best) (d :: rest)
              = closestGo pos (i + 1) (some best) rest := by
            rw [closestGo_cons, if_pos hq]
            dsimp only
            rw [if_neg himp]
          rw [hstep]
          constructor
          · intro h
            exact absurd ((ih (i + 1) (some best)).1 h).1 (by simp)
          · intro j dist h
            obtain ⟨hmin, hbnd, horig⟩ := ((ih (i + 1) (some best)).2 j dist h)
            have hdd : dist ≤ best.2 := hbnd best.1 best.2 rfl
            refine ⟨?_, ?_, ?_⟩
            · intro e he hle
              rcases List.mem_cons.mp he with rfl | he2
              · omega
              · exact hmin e he2 hle
            · intro j0 dist0 h0
              have : best = (j0, dist0) := Option.some.inj h0
              have : best.2 = dist0 := congrArg Prod.snd this
              omega
            · rcases horig with horig | ⟨k, hk, hj, hkq, hkd⟩
              · exact Or.inl horig
              · right
                refine ⟨k + 1, by simpa using hk, by omega, ?_, ?_⟩
                · simpa using hkq
                · simpa using hkd
    · have hstep : closestGo pos i acc (d :: rest) = closestGo pos (i + 1) acc rest := by
        rw [closestGo_cons, if_neg hq]
      rw [hstep]
      constructor
      · intro h
        obtain ⟨h1, h2⟩ := (ih (i + 1) acc).1 h
        refine ⟨h1, ?_⟩
        intro e he
        rcases List.mem_cons.mp he with rfl | he2
        · omega
        · exact h2 e he2
      · intro j dist h
        obtain ⟨hmin, hbnd, horig⟩ := ((ih (i + 1) acc).2 j dist h)
        refine ⟨?_, hbnd, ?_⟩
        · intro e he hle
          rcases List.mem_cons.mp he with rfl | he2
          · omega
          · exact hmin e he2 hle
        · rcases horig with horig | ⟨k, hk, hj, hkq, hkd⟩
          · exact Or.inl horig
          · right
            refine ⟨k + 1, by simpa using hk, by omega, ?_, ?_⟩
            · simpa using hkq
            · simpa using hkd

theorem closestGo_none_of (pos : Nat) : ∀ (dpos : List Nat) (i : Nat),
    (∀ d ∈ dpos, pos < d) → closestGo pos i none dpos = none := by
  intro dpos
  induction dpos with
  | nil => intro i _; rfl
  | cons d rest ih =>
    intro i h
    have hq : ¬d ≤ pos := by
      have := h d (List.mem_cons_self d rest)
      omega
    have hstep : closestGo pos i none (d :: rest) = closestGo pos (i + 1) none rest := by
      rw [closestGo_cons, if_neg hq]
    rw [hstep]
    exact ih (i + 1) (fun e he => h e (List.mem_cons_of_mem d he))

def c5d1 : DeliveryData := { ddt_series := some (strL "D"), ddt_number := some (strL "7") }

def c5d2 : DeliveryData := { ddt_series := some (strL "D"), ddt_number := some (strL "8") }

def c5pA : ProductData := { product_code := some (strL "AAA") }

def c5pB : ProductData := { product_code := some (strL "BBB") }

def c5pC : ProductData := { product_code := some (strL "CCC") }

/-- A product whose code does not occur in the page text. -/
def c5pZ : ProductData := { product_code := some (strL "ZZZ") }

/-- Two deliveries at text positions 6 and 14; product AAA at position 2
precedes both, BBB at 10 follows the first, CCC at 18 follows both, and
ZZZ is absent from the text. -/
def c5Page : PageData :=
  { page_number := 1
    raw_text := strL "xxAAA D 7 BBB D 8 CCC"
    products := [c5pA, c5pB, c5pC, c5pZ]
    all_deliveries := [c5d1, c5d2] }

def c5SinglePage : PageData :=
  { page_number := 1
    products := [c5pA]
    all_deliveries := [c5d1] }

/-- C5: with a single delivery every product is assigned to it; with
several, a product at position pos is assigned to the delivery whose text
position is closest at or before pos (the some case realizes the minimal
distance among the qualifying positions, and none is returned exactly when
no position qualifies, whereupon the caller falls back to the first
delivery); on the spec example positions 50 and 900, an item at 300 takes
the first group and an item at 950 the second; and on the concrete page
the absent code takes position end-of-text and lands in the last group
while the item preceding every delivery lands in the first. -/
theorem claim_C5 :
    (∀ (page : PageData) (d : DeliveryData), page.all_deliveries = [d] →
      page.products ≠ [] →
      associate_products_with_deliveries page = [{ d with products := page.products }]) ∧
    (∀ (pos : Nat) (dpos : List Nat) (j : Nat),
      find_closest_preceding_idx pos dpos = some j →
      ∃ hj : j < dpos.length, dpos[j] ≤ pos ∧
        ∀ i, (hi : i < dpos.length) → dpos[i] ≤ pos → pos - dpos[j] ≤ pos - dpos[i]) ∧
    (∀ (pos : Nat) (dpos : List Nat),
      find_closest_preceding_idx pos dpos = none ↔ ∀ d ∈ dpos, pos < d) ∧
    (find_closest_preceding_idx 300 [50, 900] = some 0 ∧
      find_closest_preceding_idx 950 [50, 900] = some 1) ∧
    associate_products_with_deliveries c5Page
      = [{ c5d1 with products := [c5pA, c5pB] },
         { c5d2 with products := [c5pC, c5pZ] }] := by
  refine ⟨?_, ?_, ?_, by decide, by decide⟩
  · intro page d hd hp
    obtain ⟨q, qs, hq⟩ := List.exists_cons_of_ne_nil hp
    simp [associate_products_with_deliveries, hd, hq]
  · intro pos dpos j h
    unfold find_closest_preceding_idx at h
    cases hg : closestGo pos 0 none dpos with
    | none => rw [hg] at h; exact absurd h (by simp)
    | some best =>
      rw [hg] at h
      have hj0 : best.1 = j := by
        simpa using h
      obtain ⟨hmin, _, horig⟩ :=
        (closestGo_spec pos dpos 0 none).2 best.1 best.2 (by rw [hg])
      rcases horig with horig | ⟨k, hk, hjk, hkq, hkd⟩
      · exact absurd horig (by simp)
      · have hjeq : j = k := by omega
        subst hjeq
        refine ⟨hk, hkq, ?_⟩
        intro i hi hile
        have := hmin dpos[i] (dpos.getElem_mem hi) hile
        omega
  · intro pos dpos
    constructor
    · intro h
      unfold find_closest_preceding_idx at h
      cases hg : closestGo pos 0 none dpos with
      | none => exact ((closestGo_spec pos dpos 0 none).1 hg).2
      | some best => rw [hg] at h; exact absurd h (by simp)
    · intro h
      unfold find_closest_preceding_idx
      rw [closestGo_none_of pos dpos 0 h]
      rfl

/-- Witness for C5: the single-delivery component at a concrete page. -/
theorem claim_C5_witness :
    associate_products_with_deliveries c5SinglePage
      = [{ c5d1 with products := c5SinglePage.products }] :=
  claim_C5.1 c5SinglePage c5d1 rfl (by decide)

/-! ## C7: column mapping and extraction dispatch
(table_extractor._map_table_columns / _extract_products_from_table).
A table is a list of rows of string cells; row 0 is the header and the
Camelot column labels are the indices 0, 1, 2, ... -/

/-- helpers.clean_string_field. -/
def clean_string_field (s : PyStr) : Option PyStr :=
  if s.isEmpty then none
  else
    let c := pyStrip s
    if c.isEmpty || pyLower c = strL "nan" then none else some c

/-- TableExtractor._parse_numeric_field; str(Decimal) is rendered with the
value-canonical pyDecimalStr. -/
def parse_numeric_field (value : Option PyStr) : Option PyStr :=
  match value with
  | none => none
  | some s =>
    match parse_italian_decimal s with
    | some q => some (pyDecimalStr q)
    | none => none

/-- The column map: a missing entry and an entry set to None by the
positional fallback behave identically downstream, so both are none. -/
structure ColMap where
  product_code_raw : Option Nat := none
  customs_code : Option Nat := none
  unit_measure : Option Nat := none
  quantity : Option Nat := none
  unit_price : Option Nat := none
  line_total : Option Nat := none
deriving DecidableEq, Inhabited

/-- The fuzzy header pass of _map_table_columns: each header cell is
lowercased and stripped and the first matching pattern of the if chain
claims the column; a later matching column overwrites an earlier one. -/
def fuzzyMap (df : List (List PyStr)) : ColMap :=
  let header := (df.headD []).map (fun cell => pyStrip (pyLower cell))
  (List.range header.length).foldl
    (fun cm i =>
      let h := header.getD i []
      if containsSub h (strL "prodotto") then { cm with product_code_raw := some i }
      else if containsSub h (strL "voce dog") then { cm with customs_code := some i }
      else if h = strL "um" then { cm with unit_measure := some i }
      else if containsSub h (strL "qtà fatt") then { cm with quantity := some i }
      else if containsSub h (strL "prezzo unitario") then { cm with unit_price := some i }
      else if containsSub h (strL "importo") then { cm with line_total := some i }
      else cm)
    {}

/-- TableExtractor._validate_required_columns: all four mandatory roles
mapped to an actual column. -/
def validate_required_columns (cm : ColMap) : Bool :=
  cm.product_code_raw.isSome && cm.quantity.isSome
    && cm.unit_price.isSome && cm.line_total.isSome

/-- TableExtractor._map_table_columns: fuzzy pass, then positional
setdefault fallback on the fixed indices 0, 2, 3, 4, 5, 6 guarded by the
column count (an index beyond the width is stored as None). -/
def map_table_columns (df : List (List PyStr)) : ColMap :=
  let fuzzy := fuzzyMap df
  if validate_required_columns fuzzy then fuzzy
  else
    let ncols := (df.headD []).length
    { product_code_raw :=
        match fuzzy.product_code_raw with | some v => some v | none => some 0
      customs_code :=
        match fuzzy.customs_code with
        | some v => some v | none => if 2 < ncols then some 2 else none
      unit_measure :=
        match fuzzy.unit_measure with
        | some v => some v | none => if 3 < ncols then some 3 else none
      quantity :=
        match fuzzy.quantity with
        | some v => some v | none => if 4 < ncols then some 4 else none
      unit_price :=
        match fuzzy.unit_price with
        | some v => some v | none => if 5 < ncols then some 5 else none
      line_total :=
        match fuzzy.line_total with
        | some v => some v | none => if 6 < ncols then some 6 else none }

/-- TableExtractor._build_product_description. -/
def build_product_description (ncols : Nat) (cm : ColMap) (row : List PyStr)
    (product_lines : List PyStr) : Option PyStr :=
  let pci := cm.product_code_raw.getD 0
  let part1 :=
    if pci + 1 < ncols then
      let v := pyStrip (row.getD (pci + 1) [])
      if !v.isEmpty && pyLower v ≠ strL "nan" then [v] else []
    else []
  let part2 := ((product_lines.drop 1).map pyStrip).filter
    (fun l => !l.isEmpty && pyLower l ≠ strL "nan")
  let parts := part1 ++ part2
  if parts.isEmpty then none else some (List.intercalate (strL " | ") parts)

/-- TableExtractor._extract_product_from_row; the mandatory indices are
present whenever the caller validated the column map, the 0 defaults are
never read. -/
def extract_product_from_row (ncols : Nat) (cm : ColMap) (row : List PyStr) :
    Option ProductData :=
  let product_code_raw_val := pyStrip (row.getD (cm.product_code_raw.getD 0) [])
  let product_lines := splitOnChar '\n' product_code_raw_val
  let actual := pyStrip (product_lines.headD [])
  if actual.isEmpty || (strL "total").isPrefixOf (pyLower actual) then none
  else
    let line_total_val_str := pyStrip (row.getD (cm.line_total.getD 0) [])
    if line_total_val_str.isEmpty || pyLower line_total_val_str = strL "nan" then none
    else
      some { product_code := some actual
             description := build_product_description ncols cm row product_lines
             customs_code := clean_string_field
               (match cm.customs_code with | some i => row.getD i [] | none => [])
             unit_of_measure := clean_string_field
               (match cm.unit_measure with | some i => row.getD i [] | none => [])
             quantity := parse_numeric_field
               (match cm.quantity with
                | some i => if i < row.length then some (row.getD i []) else none
                | none => none)
             unit_price := parse_numeric_field
               (match cm.unit_price with
                | some i => if i < row.length then some (row.getD i []) else none
                | none => none)
             total_price := parse_numeric_field (some line_total_val_str) }

/-- TableExtractor._extract_products_structured (rows after the header). -/
def extract_products_structured (df : List (List PyStr)) (cm : ColMap) :
    List ProductData :=
  (df.drop 1).filterMap (extract_product_from_row (df.headD []).length cm)

/-- Leftmost-anchored match of MMA digits dot digits dot digits. -/
def matchMMA (line : PyStr) : Bool :=
  match line with
  | c1 :: c2 :: c3 :: rest =>
    if c1 = 'M' && c2 = 'M' && c3 = 'A' then
      let d1 := rest.takeWhile Char.isDigit
      let r1 := rest.dropWhile Char.isDigit
      if d1.isEmpty then false
      else
        match r1 with
        | c4 :: r2 =>
          if c4 = '.' then
            let d2 := r2.takeWhile Char.isDigit
            let r3 := r2.dropWhile Char.isDigit
            if d2.isEmpty then false
            else
              match r3 with
              | c5 :: r4 => (c5 = '.' : Bool) && !(r4.takeWhile Char.isDigit).isEmpty
              | [] => false
          else false
        | [] => false
    else false
  | _ => false

/-- Case-insensitive anchored match of the eight Italian description
patterns. -/
def descPattern (line : PyStr) : Bool :=
  let l := pyLower line
  [strL "interno adesivo", strL "filo per impunture", strL "etichetta a nr",
   strL "particolare per confezione", strL "sigillo", strL "tessuto",
   strL "bottone", strL "materiale da imballo"].any (fun p => p.isPrefixOf l)

structure RowFields where
  mma_code : Option PyStr := none
  description : Option PyStr := none
  product_column : Option Nat := none
  has_product_data : Bool := false
deriving DecidableEq, Inhabited

/-- The cell loop of _parse_row_fields: an MMA cell claims the row and
stops the scan; otherwise the first description-bearing cell claims it but
the scan keeps looking for MMA codes in later cells. -/
def parseRowGo (acc : RowFields) : List (Nat × PyStr) → RowFields
  | [] => acc
  | (idx, cell) :: rest =>
    let cs := pyStrip cell
    if cs.isEmpty || pyLower cs = strL "nan" then parseRowGo acc rest
    else
      let lines := (splitOnChar '\n' cs).map pyStrip
      let mma_codes := lines.filter matchMMA
      let descriptions := lines.filter descPattern
      if !mma_codes.isEmpty then
        { acc with
          mma_code := some (mma_codes.headD [])
          product_column := some idx
          has_product_data := true
          description :=
            if !descriptions.isEmpty then some (descriptions.headD [])
            else acc.description }
      else if !descriptions.isEmpty && !acc.has_product_data then
        parseRowGo
          { acc with
            description := some (descriptions.headD [])
            product_column := some idx
            has_product_data := true } rest
      else parseRowGo acc rest

/-- TableExtractor._parse_row_fields. -/
def parse_row_fields (row : List PyStr) : RowFields :=
  parseRowGo {} ((List.range row.length).zip row)

/-- TableExtractor._extract_remaining_content_as_description. -/
def extract_remaining_content_as_description (cell : PyStr) : Option PyStr :=
  let lines := splitOnChar '\n' (pyStrip cell)
  let parts := (lines.map pyStrip).filter
    (fun l => !l.isEmpty && !(strL "MMA").isPrefixOf l)
  if parts.isEmpty then none else some (List.intercalate (strL " | ") parts)

structure NumericData where
  quantity : Option PyStr := none
  unit_price : Option PyStr := none
  total_price : Option PyStr := none
  unit_of_measure : Option PyStr := none
  valid : Bool := false
deriving DecidableEq, Inhabited

def standardUnits : List PyStr := [strL "MT", strL "KG", strL "PZ", strL "NR", strL "KM"]

/-- TableExtractor._extract_numeric_from_row: positive parseable values
outside the product column, already in ascending column order (the source
sorts an already position-ordered list), the last three taken as quantity,
unit price and total. -/
def extract_numeric_from_row (row : List PyStr) (exclude_column : Nat) : NumericData :=
  let cells := (List.range row.length).zip row
  let numeric_values := cells.filterMap (fun ic =>
    if ic.1 = exclude_column then none
    else
      let cs := pyStrip ic.2
      if cs.isEmpty || pyLower cs = strL "nan" then none
      else
        match parse_italian_decimal cs with
        | some q => if 0 < q then some (ic.1, pyDecimalStr q) else none
        | none => none)
  let unit_candidates := cells.filterMap (fun ic =>
    if ic.1 = exclude_column then none
    else
      let cs := pyStrip ic.2
      if cs.isEmpty || pyLower cs = strL "nan" then none
      else if standardUnits.any (fun u => containsSub (pyUpper cs) u) then some cs
      else none)
  if 3 ≤ numeric_values.length then
    let k := numeric_values.length
    { quantity := some (numeric_values.getD (k - 3) (0, [])).2
      unit_price := some (numeric_values.getD (k - 2) (0, [])).2
      total_price := some (numeric_values.getD (k - 1) (0, [])).2
      unit_of_measure := unit_candidates.head?
      valid := true }
  else {}

/-- TableExtractor._clean_unit_of_measure. -/
def clean_unit_of_measure (unit_str : Option PyStr) : Option PyStr :=
  match unit_str with
  | none => none
  | some u =>
    if u.isEmpty then none
    else
      let lines := splitOnChar '\n' u
      match lines.find? (fun l => standardUnits.any (fun su => su = pyUpper (pyStrip l))) with
      | some l => some (pyUpper (pyStrip l))
      | none =>
        match lines.find? (fun l =>
            !(pyStrip l).isEmpty && pyUpper (pyStrip l) ≠ strL "NAN") with
        | some l => some ((pyStrip l).take 10)
        | none => none

/-- TableExtractor._validate_product_data: floats are modelled as exact
rationals; the 5 percent tolerance test is sign-faithful to the source
(a negative total makes the quotient nonpositive and the check pass). -/
def validate_product_data (p : ProductData) : Bool :=
  if ¬pyTruthyOpt p.product_code = true then false
  else if ¬(pyTruthyOpt p.quantity && pyTruthyOpt p.unit_price
      && pyTruthyOpt p.total_price) = true then false
  else
    match parseDecL (p.quantity.getD []), parseDecL (p.unit_price.getD []),
        parseDecL (p.total_price.getD []) with
    | some q, some u, some t =>
      if t = 0 then false
      else decide (¬5 < |q * u - t| / t * 100)
    | _, _, _ => false

/-- TableExtractor._extract_products_flexible (rows after the header). -/
def extract_products_flexible (df : List (List PyStr)) : List ProductData :=
  (df.drop 1).filterMap (fun row =>
    let rf := parse_row_fields row
    if ¬rf.has_product_data = true then none
    else
      let nd := extract_numeric_from_row row (rf.product_column.getD 0)
      if ¬nd.valid = true then none
      else
        let product : ProductData :=
          match rf.mma_code with
          | some m =>
            { product_code := some m
              description :=
                match rf.description with
                | some d => some d
                | none => extract_remaining_content_as_description
                    (row.getD (rf.product_column.getD 0) [])
              quantity := nd.quantity
              unit_price := nd.unit_price
              total_price := nd.total_price
              unit_of_measure := clean_unit_of_measure nd.unit_of_measure }
          | none =>
            { product_code := rf.description
              description := none
              quantity := nd.quantity
              unit_price := nd.unit_price
              total_price := nd.total_price
              unit_of_measure := clean_unit_of_measure nd.unit_of_measure }
        if validate_product_data product then some product else none)

/-- TableExtractor._extract_products_from_table. -/
def extract_products_from_table (df : List (List PyStr)) (cm : ColMap) :
    List ProductData :=
  if df.length < 2 then []
  else if validate_required_columns cm then extract_products_structured df cm
  else extract_products_flexible df

/-- A five-column grid whose header matches no fuzzy pattern: the
positional fallback cannot fill unit price or line total (indices 5 and 6
exceed the width), so the mandatory roles stay unmapped. -/
def c7df : List (List PyStr) :=
  [[strL "a", strL "b", strL "c", strL "d", strL "e"],
   [strL "MMA1.2.3", strL "2", strL "3", strL "6", strL "MT"]]

/-- A seven-column header with blank cells: no fuzzy match, full fallback. -/
def c7df7 : List (List PyStr) := [List.replicate 7 []]

/-- C7 (amended): when the fuzzy header pass maps nothing and the grid is
at least seven columns wide, the positional fallback assigns product code
to column 0, customs code to 2, unit of measure to 3, quantity to 4, unit
price to 5 and line total to 6; but when mandatory roles remain unmapped
after the fallback, the table is not rejected: flexible row extraction is
attempted on the grid instead (and no page-local error is recorded). -/
theorem claim_C7_amended :
    (∀ df : List (List PyStr), fuzzyMap df = {} → 7 ≤ (df.headD []).length →
      map_table_columns df
        = { product_code_raw := some 0, customs_code := some 2, unit_measure := some 3,
            quantity := some 4, unit_price := some 5, line_total := some 6 }) ∧
    (∀ (df : List (List PyStr)) (cm : ColMap), ¬df.length < 2 →
      validate_required_columns cm = false →
      extract_products_from_table df cm = extract_products_flexible df) := by
  constructor
  · intro df h hlen
    unfold map_table_columns
    rw [h]
    rw [if_neg (by decide)]
    dsimp only
    rw [if_pos (by omega), if_pos (by omega), if_pos (by omega), if_pos (by omega),
      if_pos (by omega)]
  · intro df cm h1 h2
    unfold extract_products_from_table
    rw [if_neg h1, if_neg (by simp [h2])]

/-- C7 counterexample: the mandatory columns stay unmapped after the
positional fallback, yet the grid is not rejected: the flexible path
extracts a product from it. -/
theorem claim_C7_counterexample :
    validate_required_columns (map_table_columns c7df) = false ∧
    extract_products_from_table c7df (map_table_columns c7df)
      = [{ product_code := some (strL "MMA1.2.3"),
           quantity := some (strL "2"), unit_price := some (strL "3"),
           total_price := some (strL "6"), unit_of_measure := some (strL "MT") }] := by
  decide

/-- Witness for the amended C7 claim at concrete grids. -/
theorem claim_C7_amended_witness :
    map_table_columns c7df7
      = { product_code_raw := some 0, customs_code := some 2, unit_measure := some 3,
          quantity := some 4, unit_price := some 5, line_total := some 6 } ∧
    extract_products_from_table c7df (map_table_columns c7df)
      = extract_products_flexible c7df :=
  ⟨claim_C7_amended.1 c7df7 (by decide) (by decide),
   claim_C7_amended.2 c7df (map_table_columns c7df) (by decide) (by decide)⟩

/-! ## Result compiler (src/extractors/response_compiler.py)
Dictionaries keyed by strings are modelled as records of options; the
raw-text dictionary as an association list. -/

/-- The dedup key f-string series underscore number (None prints as None). -/
def ddtKey (d : DeliveryData) : PyStr :=
  pyStrOf d.ddt_series ++ '_' :: pyStrOf d.ddt_number

/-- The dedup loop of _compile_delivery_data: the first delivery of each
key keeps its position and receives, in scan order, the products of every
later delivery with the same key; later duplicates are dropped.  Fuel is
the list length, enough for the shrinking recursion. -/
def dedupDeliveriesGo : Nat → List DeliveryData → List DeliveryData
  | 0, _ => []
  | _, [] => []
  | fuel + 1, d :: rest =>
    { d with products := d.products
        ++ (rest.filter (fun e => ddtKey e = ddtKey d)).flatMap (fun e => e.products) }
      :: dedupDeliveriesGo fuel (rest.filter (fun e => ¬ddtKey e = ddtKey d))

def dedupDeliveries (ds : List DeliveryData) : List DeliveryData :=
  dedupDeliveriesGo ds.length ds

/-- Per-page delivery collection of _compile_delivery_data: all_deliveries
when nonempty, else the single delivery_info carrying the page products. -/
def collectDeliveries (p : PageData) : List DeliveryData :=
  if !p.all_deliveries.isEmpty then p.all_deliveries
  else
    match p.delivery_info with
    | some d => [{ d with products := p.products }]
    | none => []

/-- Case-insensitive literal match at the head, returning the rest. -/
def stripPrefixCI : PyStr → PyStr → Option PyStr
  | [], s => some s
  | _ :: _, [] => none
  | c :: lrest, d :: srest =>
    if Char.toLower d = Char.toLower c then stripPrefixCI lrest srest else none

/-- Case-sensitive literal match at the head, returning the rest. -/
def stripPrefixCS (lit s : PyStr) : Option PyStr :=
  if lit.isPrefixOf s then some (s.drop lit.length) else none

/-- Leftmost regex search: the first position whose anchored match
succeeds. -/
def searchAt {α : Type} (patAt : PyStr → Option α) (s : PyStr) : Option α :=
  (List.range (s.length + 1)).findSome? (fun i => patAt (s.drop i))

def isUpperAZ (c : Char) : Bool := 65 ≤ c.toNat && c.toNat ≤ 90

def isAZ09 (c : Char) : Bool := isUpperAZ c || c.isDigit

def isAZ09dot (c : Char) : Bool := isAZ09 c || c = '.'

/-- The shared tail of the model/order patterns: an order series of class
characters (exactly 9 for the first two patterns, greedy for the third),
one or more whitespace, then digits.  The classes exclude whitespace, so
the greedy runs need no backtracking. -/
def orderTail9 (r : PyStr) : Option (PyStr × PyStr) :=
  let g2 := r.take 9
  if g2.length = 9 && g2.all isAZ09 then
    let r2 := r.drop 9
    let ws := r2.takeWhile pyIsSpace
    if ws.isEmpty then none
    else
      let g3 := (r2.drop ws.length).takeWhile Char.isDigit
      if g3.isEmpty then none else some (g2, g3)
  else none

def orderTailPlus (r : PyStr) : Option (PyStr × PyStr) :=
  let g2 := r.takeWhile isAZ09
  if g2.isEmpty then none
  else
    let r2 := r.drop g2.length
    let ws := r2.takeWhile pyIsSpace
    if ws.isEmpty then none
    else
      let g3 := (r2.drop ws.length).takeWhile Char.isDigit
      if g3.isEmpty then none else some (g2, g3)

/-- Anchored match of a model/order line: the model group is the maximal
class run (its class excludes the slash and whitespace, so the boundary is
forced), optionally followed by a slash separator. -/
def modelOrderAt (slash : Bool) (nine : Bool) (s : PyStr) : Option (PyStr × PyStr × PyStr) :=
  let g1 := s.takeWhile isAZ09dot
  if g1.isEmpty then none
  else
    let r := s.drop g1.length
    let sep : Option PyStr :=
      if slash then
        let r1 := r.dropWhile pyIsSpace
        (stripPrefixCS (strL "/") r1).map (fun r2 => r2.dropWhile pyIsSpace)
      else
        let ws := r.takeWhile pyIsSpace
        if ws.isEmpty then none else some (r.drop ws.length)
    match sep with
    | none => none
    | some r2 =>
      match (if nine then orderTail9 r2 else orderTailPlus r2) with
      | some g23 => some (g1, g23.1, g23.2)
      | none => none

/-- Anchored match of the Tessuto properties pattern: whitespace is
given back greedily until a non-newline character starts the group. -/
def tessutoAt (s : PyStr) : Option PyStr :=
  (stripPrefixCS (strL "Tessuto:") s).bind fun r =>
    let ws := r.takeWhile pyIsSpace
    let rest := r.dropWhile pyIsSpace
    if !rest.isEmpty then some (rest.takeWhile (fun c => c ≠ '\n'))
    else
      ((List.range ws.length).map (fun k => ws.length - 1 - k)).findSome? (fun k =>
        match ws.drop k with
        | c :: _ => if c ≠ '\n' then some ((ws.drop k).takeWhile (fun c => c ≠ '\n')) else none
        | [] => none)

/-- Anchored match of the product/model name pattern: a nonempty rest of
the Tessuto line, a newline, then two uppercase runs on their own line
starts; the uppercase class meets neither whitespace nor the newline, so
the greedy runs are forced. -/
def tessutoNamesAt (s : PyStr) : Option (PyStr × PyStr) :=
  (stripPrefixCS (strL "Tessuto:") s).bind fun r =>
    let line := r.takeWhile (fun c => c ≠ '\n')
    if line.isEmpty then none
    else
      match r.drop line.length with
      | [] => none
      | _ :: r2 =>
        let r3 := r2.dropWhile pyIsSpace
        let g1 := r3.takeWhile isUpperAZ
        if g1.isEmpty then none
        else
          match r3.drop g1.length with
          | [] => none
          | c :: r5 =>
            if c = '\n' then
              let r6 := r5.dropWhile pyIsSpace
              let g2 := r6.takeWhile isUpperAZ
              if g2.isEmpty then none else some (g1, g2)
            else none

structure CompletionData where
  model_number : Option PyStr := none
  model_name : Option PyStr := none
  order_series : Option PyStr := none
  order_number : Option PyStr := none
  product_name : Option PyStr := none
  product_properties : Option PyStr := none
deriving DecidableEq, Inhabited

/-- ResponseCompiler._extract_delivery_completion. -/
def extract_delivery_completion (page_text : PyStr) : Option CompletionData :=
  if page_text.isEmpty then none
  else
    let search_text := page_text.take 1000
    let mo :=
      match searchAt (modelOrderAt true true) search_text with
      | some g => some g
      | none =>
        match searchAt (modelOrderAt false true) search_text with
        | some g => some g
        | none => searchAt (modelOrderAt true false) search_text
    let props := (searchAt tessutoAt search_text).map pyStrip
    let names := searchAt tessutoNamesAt search_text
    let cd : CompletionData :=
      { model_number := mo.map (fun g => pyStrip g.1)
        order_series := mo.map (fun g => pyStrip g.2.1)
        order_number := mo.map (fun g => pyStrip g.2.2)
        product_properties := props
        product_name := names.map (fun g => pyStrip g.1)
        model_name := names.map (fun g => pyStrip g.2) }
    if cd = {} then none else some cd

/-- The field merge of _merge_cross_page_deliveries (truthy completion
values overwrite). -/
def applyCompletion (d : DeliveryData) (cd : CompletionData) : DeliveryData :=
  { d with
    model_number := if pyTruthyOpt cd.model_number then cd.model_number else d.model_number
    model_name := if pyTruthyOpt cd.model_name then cd.model_name else d.model_name
    order_series := if pyTruthyOpt cd.order_series then cd.order_series else d.order_series
    order_number := if pyTruthyOpt cd.order_number then cd.order_number else d.order_number
    product_name := if pyTruthyOpt cd.product_name then cd.product_name else d.product_name
    product_properties :=
      if pyTruthyOpt cd.product_properties then cd.product_properties
      else d.product_properties }

/-- The subsequent-page scan: skip pages at or before the source page,
stop after source plus two, take the first completion found. -/
def findCompletion (spn : Int) : List PageData → Option CompletionData
  | [] => none
  | p :: rest =>
    if p.page_number ≤ spn then findCompletion spn rest
    else if spn + 2 < p.page_number then none
    else
      match extract_delivery_completion p.raw_text with
      | some cd => some cd
      | none => findCompletion spn rest

/-- A delivery with DDT data but a missing model number or product name. -/
def incompleteB (d : DeliveryData) : Bool :=
  pyTruthyOpt d.ddt_series && pyTruthyOpt d.ddt_number
    && (!pyTruthyOpt d.model_number || !pyTruthyOpt d.product_name)

/-- ResponseCompiler._merge_cross_page_deliveries: complete deliveries
keep their order, the incomplete ones follow, each completed from the
first matching subsequent page of its source page when that page is
found by value membership in all_deliveries. -/
def merge_cross_page_deliveries (deliveries : List DeliveryData)
    (pages : List PageData) : List DeliveryData :=
  let incompletes := deliveries.filter incompleteB
  let completes := deliveries.filter (fun d => !incompleteB d)
  completes ++ incompletes.map (fun d =>
    match pages.find? (fun p => p.all_deliveries.contains d) with
    | none => d
    | some sp =>
      match findCompletion sp.page_number pages with
      | some cd => applyCompletion d cd
      | none => d)

/-- The pre-dedup delivery list of _compile_delivery_data: all collected
deliveries (or the minimal catch-all delivery carrying every product),
after cross-page merging. -/
def preDedupDeliveries (pages : List PageData) : List DeliveryData :=
  let deliveries := pages.flatMap collectDeliveries
  let deliveries :=
    if deliveries.isEmpty then
      [{ products := pages.flatMap PageData.products }]
    else deliveries
  merge_cross_page_deliveries deliveries pages

/-- ResponseCompiler._compile_delivery_data. -/
def compile_delivery_data (pages : List PageData) : List DeliveryData :=
  dedupDeliveries (preDedupDeliveries pages)

/-- ResponseCompiler._compile_products: corrected products replace a
page's products when its validation failed and corrections exist. -/
def compile_products (pages : List PageData) (vrs : List ValidationResult) :
    List ProductData :=
  (List.range pages.length).flatMap (fun i =>
    let page := pages.getD i default
    if i < vrs.length then
      let vr := vrs.getD i default
      if ¬vr.is_valid = true then
        match vr.corrected_data with
        | some cd => cd.corrected_products
        | none => page.products
      else page.products
    else page.products)

/-- ResponseCompiler._compile_raw_text: the page-keyed dictionary as an
association list, text truncated to 5000 characters. -/
def compile_raw_text (pages : List PageData) : List (PyStr × PyStr) :=
  pages.map (fun p => (strL "page" ++ intStr (p.page_number + 1), p.raw_text.take 5000))

/-- The checksum accumulation: truthy total strings whose parse is a
truthy (nonzero) Decimal contribute to the sum. -/
def calcTotal (products : List ProductData) : ℚ :=
  products.foldl (fun acc p =>
    match p.total_price with
    | some tp =>
      if tp.isEmpty then acc
      else
        match parse_italian_decimal tp with
        | some q => if q ≠ 0 then acc + q else acc
        | none => acc
    | none => acc) 0

def checksumMismatchMsg (stated calculated : ℚ) : PyStr :=
  strL "Checksum Mismatch: Stated Grand Total " ++ pyDecimalStr stated
    ++ strL ", Calculated Sum " ++ pyDecimalStr calculated
    ++ strL ", Difference: " ++ pyDecimalStr |stated - calculated|

/-- ResponseCompiler._perform_final_validations.  A zero parse of the
stated total is falsy and lands in the could-not-parse branch. -/
def perform_final_validations (config : ProcessingConfig) (result : ExtractionResult) :
    ExtractionResult :=
  if ¬config.validate_checksums = true then result
  else
    let calculated_total := calcTotal result.products
    match result.bill_data with
    | some bd =>
      match bd.total_amount with
      | some ta =>
        if ta.isEmpty then
          { result with parsing_errors := result.parsing_errors
              ++ [strL "No total amount found for checksum validation"] }
        else
          match parse_italian_decimal ta with
          | some stated =>
            if stated ≠ 0 then
              if |stated - calculated_total| ≤ 1/100 then
                { result with validation_checksum_ok := true }
              else
                { result with parsing_errors := result.parsing_errors
                    ++ [checksumMismatchMsg stated calculated_total] }
            else
              { result with parsing_errors := result.parsing_errors
                  ++ [strL "Could not parse stated total amount for checksum validation"] }
          | none =>
            { result with parsing_errors := result.parsing_errors
                ++ [strL "Could not parse stated total amount for checksum validation"] }
      | none =>
        { result with parsing_errors := result.parsing_errors
            ++ [strL "No total amount found for checksum validation"] }
    | none =>
      { result with parsing_errors := result.parsing_errors
          ++ [strL "No total amount found for checksum validation"] }

def isNumChar (c : Char) : Bool := c.isDigit || c = '.' || c = ','

def numGroupAt (r : PyStr) : Option PyStr :=
  let g := r.takeWhile isNumChar
  if g.isEmpty then none else some g

/-- The ( EUR ) middle piece of the first two total patterns. -/
def eurThenNum (r : PyStr) : Option PyStr :=
  (stripPrefixCS (strL "(") (r.dropWhile pyIsSpace)).bind fun r1 =>
  (stripPrefixCI (strL "eur") (r1.dropWhile pyIsSpace)).bind fun r2 =>
  (stripPrefixCS (strL ")") (r2.dropWhile pyIsSpace)).bind fun r3 =>
  numGroupAt (r3.dropWhile pyIsSpace)

/-- Anchored total patterns (case-insensitive); ale is the optional
(?:ale)? piece, eur selects the ( EUR ) form of the tail. -/
def totPatAt (ale eur : Bool) (s : PyStr) : Option PyStr :=
  (stripPrefixCI (strL "tot") s).bind fun r =>
    let tail := fun (r2 : PyStr) =>
      (stripPrefixCI (strL "importo:") (r2.dropWhile pyIsSpace)).bind fun r3 =>
        if eur then eurThenNum r3 else numGroupAt (r3.dropWhile pyIsSpace)
    if ale then
      match (stripPrefixCI (strL "ale") r).bind tail with
      | some g => some g
      | none => tail r
    else tail r

def totaleAt (s : PyStr) : Option PyStr :=
  (stripPrefixCI (strL "totale:") s).bind fun r => numGroupAt (r.dropWhile pyIsSpace)

/-- The five total patterns in source order (the uppercase fifth pattern
coincides with the fourth under the case-insensitive flag). -/
def totalPatterns : List (PyStr → Option PyStr) :=
  [totPatAt false true, totPatAt true true, totPatAt true false, totaleAt, totaleAt]

/-- The total-amount loop: the first pattern whose leftmost match parses
to a truthy (nonzero) Decimal wins. -/
def tryTotalPatterns (footer : PyStr) : Option ℚ :=
  totalPatterns.findSome? (fun pat =>
    match searchAt pat footer with
    | some g =>
      match parse_italian_decimal g with
      | some v => if v ≠ 0 then some v else none
      | none => none
    | none => none)

def digitsGroupAt (r : PyStr) : Option PyStr :=
  let g := r.takeWhile Char.isDigit
  if g.isEmpty then none else some g

def pkgPatterns : List (PyStr → Option PyStr) :=
  [fun s => (stripPrefixCI (strL "numero colli:") s).bind fun r =>
      digitsGroupAt (r.dropWhile pyIsSpace),
   fun s => (stripPrefixCI (strL "n.") s).bind fun r =>
      (stripPrefixCI (strL "colli:") (r.dropWhile pyIsSpace)).bind fun r2 =>
        digitsGroupAt (r2.dropWhile pyIsSpace),
   fun s => (stripPrefixCI (strL "colli:") s).bind fun r =>
      digitsGroupAt (r.dropWhile pyIsSpace)]

/-- The package-count loop: int() of the digit group always succeeds. -/
def tryPkgPatterns (footer : PyStr) : Option Int :=
  pkgPatterns.findSome? (fun pat => (searchAt pat footer).map (fun g => (valMSB g : Int)))

/-- The three weight patterns for a given keyword (netto or lordo). -/
def weightPatterns (kw : PyStr) : List (PyStr → Option PyStr) :=
  [fun s => (stripPrefixCI (strL "peso " ++ kw ++ strL " ( kg ):") s).bind fun r =>
      numGroupAt (r.dropWhile pyIsSpace),
   fun s => (stripPrefixCI (strL "peso") s).bind fun r =>
      (stripPrefixCI kw (r.dropWhile pyIsSpace)).bind fun r2 =>
      (stripPrefixCS (strL "(") (r2.dropWhile pyIsSpace)).bind fun r3 =>
      (stripPrefixCI (strL "kg") (r3.dropWhile pyIsSpace)).bind fun r4 =>
      (stripPrefixCS (strL "):") (r4.dropWhile pyIsSpace)).bind fun r5 =>
        numGroupAt (r5.dropWhile pyIsSpace),
   fun s => (stripPrefixCI (strL "peso") s).bind fun r =>
      (stripPrefixCI (kw ++ strL ":") (r.dropWhile pyIsSpace)).bind fun r2 =>
        numGroupAt (r2.dropWhile pyIsSpace)]

/-- A weight loop: the first pattern whose match parses truthy wins. -/
def tryWeightPatterns (kw : PyStr) (footer : PyStr) : Option ℚ :=
  (weightPatterns kw).findSome? (fun pat =>
    match searchAt pat footer with
    | some g =>
      match parse_italian_decimal g with
      | some v => if v ≠ 0 then some v else none
      | none => none
    | none => none)

/-- The Porto pattern (case-sensitive): rest of line after greedy
whitespace. -/
def portoAt (s : PyStr) : Option PyStr :=
  (stripPrefixCS (strL "Porto:") s).map fun r =>
    (r.dropWhile pyIsSpace).takeWhile (fun c => c ≠ '\n')

def pyTruthyOptInt (o : Option Int) : Bool :=
  match o with
  | some z => decide (z ≠ 0)
  | none => false

/-- One footer page pass: each still-falsy field takes the first match of
its pattern list. -/
def footerStep (bill : BillData) (footer : PyStr) : BillData :=
  let bill :=
    if !pyTruthyOpt bill.total_amount then
      match tryTotalPatterns footer with
      | some v => { bill with total_amount := some (pyDecimalStr v) }
      | none => bill
    else bill
  let bill :=
    if !pyTruthyOpt bill.shipping_term then
      match searchAt portoAt footer with
      | some g => { bill with shipping_term := some (pyStrip g) }
      | none => bill
    else bill
  let bill :=
    if !pyTruthyOptInt bill.package_count then
      match tryPkgPatterns footer with
      | some n => { bill with package_count := some n }
      | none => bill
    else bill
  let bill :=
    if !pyTruthyOpt bill.net_weight_kg then
      match tryWeightPatterns (strL "netto") footer with
      | some v => { bill with net_weight_kg := some (pyDecimalStr v) }
      | none => bill
    else bill
  if !pyTruthyOpt bill.gross_weight_kg then
    match tryWeightPatterns (strL "lordo") footer with
    | some v => { bill with gross_weight_kg := some (pyDecimalStr v) }
    | none => bill
  else bill

/-- ResponseCompiler._extract_footer_information: the last two pages,
scanned from the last backwards; pages without raw text are skipped.  The
compiler always sets bill_data, so the none branch is unreachable from
compile_final_result. -/
def extract_footer_information (result : ExtractionResult) (pages : List PageData) :
    ExtractionResult :=
  if pages.isEmpty then result
  else
    match result.bill_data with
    | none => result
    | some bill =>
      let pages2 := pages.drop (pages.length - 2)
      let newBill := pages2.reverse.foldl
        (fun b p => if p.raw_text.isEmpty then b else footerStep b p.raw_text) bill
      { result with bill_data := some newBill }

/-- ResponseCompiler._generate_final_message. -/
def generate_final_message (r : ExtractionResult) : PyStr :=
  if ¬r.success = true then
    strL "Invoice parsing failed with errors. Check parsing_errors field for details."
  else if !r.parsing_errors.isEmpty then
    strL "Invoice parsing completed with warnings. Check parsing_errors field for details."
  else if ¬r.validation_checksum_ok = true then
    strL "Invoice parsing completed but checksum validation failed."
  else
    let failed := r.validation_results.filter (fun v => ¬v.is_valid = true)
    if !failed.isEmpty then
      strL "Invoice parsing completed but " ++ natDigits failed.length
        ++ strL " pages failed OCR validation."
    else strL "Invoice parsing completed successfully."

/-- ResponseCompiler.compile_final_result.  The enclosing try/except is
unreachable in the model; the pdf filename is unused by the source. -/
def compile_final_result (config : ProcessingConfig) (bill_data : BillData)
    (pages : List PageData) (validation_results : List ValidationResult) :
    ExtractionResult :=
  let r0 : ExtractionResult :=
    { success := true
      bill_data := some bill_data
      delivery_data := compile_delivery_data pages
      products := compile_products pages validation_results
      page_data := pages
      validation_results := validation_results
      raw_text := compile_raw_text pages }
  let r5 := perform_final_validations config r0
  let r6 := extract_footer_information r5 pages
  let r7 := { r6 with success := r6.parsing_errors.isEmpty }
  { r7 with message := generate_final_message r7 }

theorem dedupGo_mem : ∀ (fuel : Nat) (ds : List DeliveryData),
    ∀ d ∈ dedupDeliveriesGo fuel ds,
    ∃ d0 ∈ ds, ddtKey d0 = ddtKey d ∧
      d.products = (ds.filter (fun e => ddtKey e = ddtKey d)).flatMap
        (fun e => e.products) := by
  intro fuel
  induction fuel with
  | zero => intro ds d hd; simp [dedupDeliveriesGo] at hd
  | succ fuel ih =>
    intro ds d hd
    cases ds with
    | nil => simp [dedupDeliveriesGo] at hd
    | cons d0 rest =>
      simp only [dedupDeliveriesGo] at hd
      rcases List.mem_cons.mp hd with heq | hmem
      · subst heq
        refine ⟨d0, List.mem_cons_self _ _, ?_, ?_⟩
        · unfold ddtKey
          rfl
        show d0.products
            ++ (rest.filter (fun e => ddtKey e = ddtKey d0)).flatMap (fun e => e.products)
          = ((d0 :: rest).filter (fun e => ddtKey e = ddtKey d0)).flatMap
              (fun e => e.products)
        rw [List.filter_cons, if_pos (by simp)]
        rfl
      · obtain ⟨d1, hd1mem, hd1key, hform⟩ := ih _ d hmem
        have hd1in : d1 ∈ rest := (List.mem_filter.mp hd1mem).1
        have hd1ne : ¬ddtKey d1 = ddtKey d0 := by
          simpa using (List.mem_filter.mp hd1mem).2
        refine ⟨d1, List.mem_cons_of_mem _ hd1in, hd1key, ?_⟩
        rw [hform]
        congr 1
        rw [List.filter_cons, if_neg (by
          simp only [decide_eq_true_eq]
          intro hcon
          exact hd1ne (hd1key.symm ▸ hcon.symm ▸ rfl))]
        rw [List.filter_filter]
        apply List.filter_congr
        intro e he
        by_cases hke : ddtKey e = ddtKey d
        · simp only [hke, decide_eq_true_eq]
          have : ¬ddtKey d = ddtKey d0 := by
            rw [← hd1key]
            exact hd1ne
          simp [hke, this]
        · simp [hke]

theorem dedupGo_pairwise : ∀ (fuel : Nat) (ds : List DeliveryData),
    (dedupDeliveriesGo fuel ds).Pairwise (fun a b => ddtKey a ≠ ddtKey b) := by
  intro fuel
  induction fuel with
  | zero => intro ds; simp [dedupDeliveriesGo]
  | succ fuel ih =>
    intro ds
    cases ds with
    | nil => simp [dedupDeliveriesGo]
    | cons d0 rest =>
      simp only [dedupDeliveriesGo]
      refine List.pairwise_cons.mpr ⟨?_, ih _⟩
      intro b hb
      obtain ⟨d1, hd1mem, hd1key, _⟩ := dedupGo_mem fuel _ b hb
      have hne : ¬ddtKey d1 = ddtKey d0 := by
        simpa using (List.mem_filter.mp hd1mem).2
      show ddtKey d0 ≠ ddtKey b
      rw [← hd1key]
      exact fun h => hne h.symm

theorem dedupGo_covers : ∀ (fuel : Nat) (ds : List DeliveryData), ds.length ≤ fuel →
    ∀ e ∈ ds, ∃ d ∈ dedupDeliveriesGo fuel ds, ddtKey d = ddtKey e := by
  intro fuel
  induction fuel with
  | zero =>
    intro ds h e he
    have h0 : ds = [] := List.eq_nil_of_length_eq_zero (by omega)
    subst h0
    simp at he
  | succ fuel ih =>
    intro ds hlen e he
    cases ds with
    | nil => simp at he
    | cons d0 rest =>
      simp only [dedupDeliveriesGo]
      by_cases hk : ddtKey e = ddtKey d0
      · exact ⟨_, List.mem_cons_self _ _, show ddtKey d0 = ddtKey e from hk.symm⟩
      · rcases List.mem_cons.mp he with heq | he2
        · exact absurd (heq ▸ rfl) hk
        · have he3 : e ∈ rest.filter (fun x => ¬ddtKey x = ddtKey d0) :=
            List.mem_filter.mpr ⟨he2, by simpa using hk⟩
          have hlen2 : (rest.filter (fun x => ¬ddtKey x = ddtKey d0)).length ≤ fuel :=
            le_trans (List.length_filter_le _ _)
              (by simpa using Nat.le_of_succ_le_succ hlen)
          obtain ⟨d, hdmem, hdkey⟩ := ih _ hlen2 e he3
          exact ⟨d, List.mem_cons_of_mem _ hdmem, hdkey⟩

def c9d1 : DeliveryData :=
  { ddt_series := some (strL "A"), ddt_number := some (strL "1"), products := [c5pA] }

def c9d2 : DeliveryData :=
  { ddt_series := some (strL "B"), ddt_number := some (strL "2"), products := [c5pB] }

/-- A duplicate of the first delivery pair appearing on a later page with
its own product. -/
def c9d3 : DeliveryData :=
  { ddt_series := some (strL "A"), ddt_number := some (strL "1"), products := [c5pC] }

def c9pages : List PageData :=
  [{ page_number := 0, all_deliveries := [c9d1, c9d2] },
   { page_number := 1, all_deliveries := [c9d3] }]

/-- C9: in the compiled delivery list no two entries share the same
(series, number) pair; every compiled entry is keyed by some pre-dedup
delivery and owns exactly the concatenation, in scan order, of the
products of all same-key pre-dedup deliveries; and every pre-dedup
delivery has a same-key representative in the output, so no product list
is lost by the merge. -/
theorem claim_C9 :
    (∀ pages : List PageData,
      (compile_delivery_data pages).Pairwise
        (fun a b => ¬(a.ddt_series = b.ddt_series ∧ a.ddt_number = b.ddt_number))) ∧
    (∀ pages : List PageData, ∀ d ∈ compile_delivery_data pages,
      d.products = ((preDedupDeliveries pages).filter
        (fun e => ddtKey e = ddtKey d)).flatMap (fun e => e.products)) ∧
    (∀ pages : List PageData, ∀ e ∈ preDedupDeliveries pages,
      ∃ d ∈ compile_delivery_data pages, ddtKey d = ddtKey e) := by
  refine ⟨?_, ?_, ?_⟩
  · intro pages
    refine (dedupGo_pairwise _ _).imp ?_
    intro a b hk hcon
    exact hk (by rw [ddtKey, ddtKey, hcon.1, hcon.2])
  · intro pages d hd
    obtain ⟨_, _, _, hform⟩ := dedupGo_mem _ _ d hd
    exact hform
  · intro pages e he
    exact dedupGo_covers _ _ (le_refl _) e he

/-- Witness for C9: two pages containing a duplicated (series, number)
pair; the merged first occurrence owns both product lists. -/
theorem claim_C9_witness :
    ({ c9d1 with products := [c5pA, c5pC] } : DeliveryData).products
      = ((preDedupDeliveries c9pages).filter
          (fun e => ddtKey e
            = ddtKey ({ c9d1 with products := [c5pA, c5pC] } : DeliveryData))).flatMap
          (fun e => e.products) :=
  claim_C9.2.1 c9pages { c9d1 with products := [c5pA, c5pC] } (by decide)

def c3Products : List ProductData :=
  [{ total_price := some (strL "126,911") }, { total_price := some (strL "87,842") },
   { total_price := some (strL "16,238") }, { total_price := some (strL "16,616") },
   { total_price := some (strL "2,907") }]

def c3Result (ta : PyStr) : ExtractionResult :=
  { success := true
    bill_data := some { total_amount := some ta }
    products := c3Products }

/-- A result whose declared total parses to the falsy Decimal zero. -/
def c3ZeroResult : ExtractionResult :=
  { success := true
    bill_data := some { total_amount := some (strL "0") }
    products := [] }

/-- C3 (amended): when checksum validation is enabled and the declared
grand total parses to a nonzero value, the checksum flag is set exactly
when the declared total is within 0.01 of the exact sum of the parseable
nonzero line totals, and otherwise a checksum-mismatch warning is
appended; the spec example sums 126.911+87.842+16.238+16.616+2.907 =
250.514, so a declared 250,51 passes and a declared 260,00 fails with the
mismatch message.  A declared total parsing to zero is excluded: the code
treats it as unparseable (see the counterexample). -/
theorem claim_C3_amended :
    (∀ (config : ProcessingConfig) (result : ExtractionResult) (bd : BillData)
        (ta : PyStr) (stated : ℚ),
      config.validate_checksums = true →
      result.bill_data = some bd →
      bd.total_amount = some ta →
      ta.isEmpty = false →
      parse_italian_decimal ta = some stated →
      stated ≠ 0 →
      result.validation_checksum_ok = false →
      ((perform_final_validations config result).validation_checksum_ok = true
        ↔ |stated - calcTotal result.products| ≤ 1/100) ∧
      (¬|stated - calcTotal result.products| ≤ 1/100 →
        (perform_final_validations config result).parsing_errors
          = result.parsing_errors
            ++ [checksumMismatchMsg stated (calcTotal result.products)])) ∧
    calcTotal c3Products = 250514/1000 ∧
    (perform_final_validations defaultProcessingConfig
        (c3Result (strL "250,51"))).validation_checksum_ok = true ∧
    (perform_final_validations defaultProcessingConfig
        (c3Result (strL "260,00"))).validation_checksum_ok = false ∧
    (perform_final_validations defaultProcessingConfig
        (c3Result (strL "260,00"))).parsing_errors
      = [checksumMismatchMsg 260 (250514/1000)] := by
  refine ⟨?_, by decide, by decide, by decide, by decide⟩
  intro config result bd ta stated hc hbd hta htane hparse hnz hok0
  unfold perform_final_validations
  rw [if_neg (by simp [hc]), hbd]
  dsimp only
  rw [hta]
  dsimp only
  rw [if_neg (by simp [htane]), hparse]
  dsimp only
  rw [if_pos hnz]
  by_cases hle : |stated - calcTotal result.products| ≤ 1/100
  · rw [if_pos hle]
    exact ⟨⟨fun _ => hle, fun _ => rfl⟩, fun hcon => absurd hle hcon⟩
  · rw [if_neg hle]
    refine ⟨⟨?_, fun hcon => absurd hcon hle⟩, fun _ => rfl⟩
    intro h
    exact absurd (show result.validation_checksum_ok = true from h)
      (by rw [hok0]; exact Bool.false_ne_true)

/-- C3 counterexample: a declared grand total that parses to zero.  The
parse succeeds and the zero total matches the zero product sum within
tolerance, yet the flag stays false and the could-not-parse error is
recorded. -/
theorem claim_C3_counterexample :
    parse_italian_decimal (strL "0") = some 0 ∧
    |(0:ℚ) - calcTotal ([] : List ProductData)| ≤ 1/100 ∧
    (perform_final_validations defaultProcessingConfig
        c3ZeroResult).validation_checksum_ok = false ∧
    (perform_final_validations defaultProcessingConfig c3ZeroResult).parsing_errors
      = [strL "Could not parse stated total amount for checksum validation"] := by
  decide

/-- Witness for the amended C3 claim at the mismatching declared total. -/
theorem claim_C3_amended_witness :
    ((perform_final_validations defaultProcessingConfig
        (c3Result (strL "260,00"))).validation_checksum_ok = true
      ↔ |(260:ℚ) - calcTotal (c3Result (strL "260,00")).products| ≤ 1/100) ∧
    (¬|(260:ℚ) - calcTotal (c3Result (strL "260,00")).products| ≤ 1/100 →
      (perform_final_validations defaultProcessingConfig
          (c3Result (strL "260,00"))).parsing_errors
        = (c3Result (strL "260,00")).parsing_errors
          ++ [checksumMismatchMsg 260 (calcTotal (c3Result (strL "260,00")).products)]) :=
  claim_C3_amended.1 defaultProcessingConfig (c3Result (strL "260,00"))
    { total_amount := some (strL "260,00") } (strL "260,00") 260
    rfl rfl rfl (by decide) (by decide) (by decide) rfl

theorem warnings_msg_ne (xs : PyStr) :
    strL "Invoice parsing completed but " ++ xs
      ≠ strL "Invoice parsing completed with warnings. Check parsing_errors field for details." := by
  intro h
  have h30 := congrArg (List.take 30) h
  rw [show (30 : Nat) = (strL "Invoice parsing completed but ").length from rfl,
    List.take_left] at h30
  exact absurd h30 (by decide)

/-- A page whose five line totals sum to 250.514 and that carries no
delivery data. -/
def c4MismatchPage : PageData :=
  { page_number := 0, products := c3Products }

def c4MismatchBill : BillData := { total_amount := some (strL "260,00") }

/-- A page carrying a page-local extraction error and a single product
whose total matches the declared grand total. -/
def c4ErrPage : PageData :=
  { page_number := 0
    products := [{ total_price := some (strL "6,00") }]
    errors := [strL "page-local extraction error"] }

def c4ErrBill : BillData := { total_amount := some (strL "6,00") }

/-- C4 (code bug): the final success flag is true exactly when the
result-level parsing_errors list is empty.  Contrary to the claim, a
checksum mismatch is appended to parsing_errors and therefore flips
success to false, and page-local errors never reach parsing_errors and
leave success true.  The completed-with-warnings message of the message
generator requires success with nonempty parsing_errors and is therefore
unreachable, evidence that the claimed semantics was the intent. -/
theorem claim_C4 :
    (∀ (config : ProcessingConfig) (bill : BillData) (pages : List PageData)
        (vrs : List ValidationResult),
      (compile_final_result config bill pages vrs).success = true
        ↔ (compile_final_result config bill pages vrs).parsing_errors = []) ∧
    (∀ (config : ProcessingConfig) (bill : BillData) (pages : List PageData)
        (vrs : List ValidationResult),
      (compile_final_result config bill pages vrs).message
        ≠ strL "Invoice parsing completed with warnings. Check parsing_errors field for details.") ∧
    ((compile_final_result defaultProcessingConfig c4MismatchBill
        [c4MismatchPage] []).success = false ∧
      (compile_final_result defaultProcessingConfig c4MismatchBill
        [c4MismatchPage] []).parsing_errors
        = [checksumMismatchMsg 260 (250514/1000)] ∧
      (compile_final_result defaultProcessingConfig c4MismatchBill
        [c4MismatchPage] []).message
        = strL "Invoice parsing failed with errors. Check parsing_errors field for details.") ∧
    ((compile_final_result defaultProcessingConfig c4ErrBill [c4ErrPage] []).success = true ∧
      c4ErrPage.errors ≠ [] ∧
      (compile_final_result defaultProcessingConfig c4ErrBill
        [c4ErrPage] []).page_data = [c4ErrPage] ∧
      (compile_final_result defaultProcessingConfig c4ErrBill
        [c4ErrPage] []).validation_checksum_ok = true) := by
  refine ⟨?_, ?_, by decide, by decide⟩
  · intro config bill pages vrs
    unfold compile_final_result
    dsimp only
    generalize extract_footer_information
      (perform_final_validations config _) pages = r6
    cases hpe : r6.parsing_errors <;> simp [hpe]
  · intro config bill pages vrs
    unfold compile_final_result
    dsimp only
    generalize extract_footer_information
      (perform_final_validations config _) pages = r6
    unfold generate_final_message
    dsimp only
    cases hpe : r6.parsing_errors with
    | cons e es =>
      rw [if_pos (by simp)]
      decide
    | nil =>
      rw [if_neg (by simp)]
      rw [if_neg (by simp)]
      by_cases hck : r6.validation_checksum_ok = true
      · rw [if_neg (by simp [hck])]
        by_cases hfail : ((r6.validation_results.filter
            (fun v => ¬v.is_valid = true)).isEmpty) = true
        · rw [if_neg (by rw [hfail]; decide)]
          decide
        · rw [Bool.not_eq_true] at hfail
          rw [if_pos (by rw [hfail]; decide)]
          exact warnings_msg_ne _
      · rw [if_pos (by simp [hck])]
        decide

/-- Witness for C4: the success iff parsing_errors characterization at a
concrete compiled result. -/
theorem claim_C4_witness :
    (compile_final_result defaultProcessingConfig c4ErrBill [c4ErrPage] []).success = true
      ↔ (compile_final_result defaultProcessingConfig c4ErrBill
          [c4ErrPage] []).parsing_errors = [] :=
  claim_C4.1 defaultProcessingConfig c4ErrBill [c4ErrPage] []
